import Mathlib

/-
  Verification of `stlab::copy_on_write<T>` (src/include/stlab/copy_on_write.hpp).

  The C++ class is embedded as a state machine.  A `Config` holds the heap of
  shared storage cells (each a reference count plus the wrapped value), the
  process-wide default cell, and every live handle (`copy_on_write` object).
  Each public member function of the class becomes one transition (`Op`),
  translated line by line from the source; observers (`read`, `unique`,
  `identity`) and the friend comparison operators become functions over a
  `Config`.  Machine pointers become cell ids (Nat); a handle's `_self`
  pointer is `Option Nat`, with `none` for the moved-from null state.
-/

set_option linter.unusedVariables false

namespace CoW

/-- Shared storage cell: the reference count together with the wrapped value.
Embeds `struct model` of copy_on_write.hpp (lines 125-135): `_count` starts at
1 on construction, `_value` is the element. -/
structure Cell (T : Type) where
  count : Nat
  value : T
deriving Repr, DecidableEq

/-- Global configuration: the heap of cells (association list keyed by cell
id), the allocation counter (fresh cell ids), the process-wide default cell
for the element type (if already created), the live handles (each one
`copy_on_write` object; `none` models a null `_self`, i.e. moved-from), and
the handle-id counter. -/
structure Config (T : Type) where
  cells : List (Nat × Cell T)
  nextId : Nat
  defaultCell : Option Nat
  handles : List (Nat × Option Nat)
  nextHandle : Nat
deriving Repr, DecidableEq

/-- Association-list lookup by key (first match). -/
def alookup {α : Type} : List (Nat × α) → Nat → Option α
  | [], _ => none
  | (k, a) :: rest, i => if i = k then some a else alookup rest i

/-- Association-list update of the first entry with the given key. -/
def aset {α : Type} : List (Nat × α) → Nat → α → List (Nat × α)
  | [], _, _ => []
  | (k, a) :: rest, i, v => if i = k then (k, v) :: rest else (k, a) :: aset rest i v

/-- Association-list removal of the first entry with the given key. -/
def aremove {α : Type} : List (Nat × α) → Nat → List (Nat × α)
  | [], _ => []
  | (k, a) :: rest, i => if i = k then rest else (k, a) :: aremove rest i

/-- Number of handles currently referencing cell `c`. -/
def refCountH : List (Nat × Option Nat) → Nat → Nat
  | [], _ => 0
  | (_, r) :: rest, c => (if r = some c then 1 else 0) + refCountH rest c

/-- Number of handles of the configuration referencing cell `c`. -/
def refCount {T : Type} (cfg : Config T) (c : Nat) : Nat :=
  refCountH cfg.handles c

/-- The permanent extra unit of count carried by the process-wide default
cell (the `static model default_s` itself, line 147). -/
def baseline {T : Type} (cfg : Config T) (c : Nat) : Nat :=
  if cfg.defaultCell = some c then 1 else 0

/-- Allocate a fresh cell `new model(v)` with `_count = 1` (lines 126, 131).
Returns its id and the new configuration. -/
def newCell {T : Type} (cfg : Config T) (v : T) : Nat × Config T :=
  (cfg.nextId,
   { cfg with cells := (cfg.nextId, ⟨1, v⟩) :: cfg.cells, nextId := cfg.nextId + 1 })

/-- Register a fresh handle whose `_self` is `r`. -/
def attachNew {T : Type} (cfg : Config T) (r : Option Nat) : Nat × Config T :=
  (cfg.nextHandle,
   { cfg with handles := (cfg.nextHandle, r) :: cfg.handles,
              nextHandle := cfg.nextHandle + 1 })

/-- The destructor body applied to one `_self` reference (lines 211-220):
if non-null, `fetch_sub(1)`; if the previous count was 1, `delete _self`. -/
def releaseRef {T : Type} (cfg : Config T) : Option Nat → Config T
  | none => cfg
  | some c =>
    match alookup cfg.cells c with
    | none => cfg
    | some cell =>
      if cell.count = 1 then { cfg with cells := aremove cfg.cells c }
      else { cfg with cells := aset cfg.cells c ⟨cell.count - 1, cell.value⟩ }

/-- The `default_model()` function (lines 146-149): a lazily created
process-wide `static model default_s` whose `_count` starts at 1; returns its
id, creating the cell on first use. -/
def default_model {T : Type} [Inhabited T] (cfg : Config T) : Nat × Config T :=
  match cfg.defaultCell with
  | some d => (d, cfg)
  | none =>
    (cfg.nextId,
     { cfg with cells := (cfg.nextId, ⟨1, default⟩) :: cfg.cells,
                nextId := cfg.nextId + 1,
                defaultCell := some cfg.nextId })

/-- One API call of the class, identified by the handle ids it acts on.
`writeT` carries the transform and in-place functions of
`write(Transform, Inplace)` as Lean functions. -/
inductive Op (T : Type) where
  | defaultCtor
  | valueCtor (v : T)
  | copyCtor (src : Nat)
  | moveCtor (src : Nat)
  | destroy (h : Nat)
  | copyAssign (dst src : Nat)
  | moveAssign (dst src : Nat)
  | valueAssign (h : Nat) (v : T)
  | write (h : Nat)
  | writeT (h : Nat) (transform : T → T) (inplace : T → T)
  | swapOp (a b : Nat)

/-- One step of the state machine; `none` when a contract precondition of the
source (a debug assertion, or use of a dead handle) is violated.  Each branch
is the body of the corresponding member function of copy_on_write.hpp:
* `defaultCtor`  = the default constructor (lines 170-175): attach to
  `default_model()` and `fetch_add(1)` its count;
* `valueCtor`    = the value-forwarding constructor (line 181): fresh cell;
* `copyCtor`     = the copy constructor (lines 194-199): requires non-null
  source, `fetch_add(1)`;
* `moveCtor`     = the move constructor (line 204): steal `_self`, null the
  source, no count change;
* `destroy`      = the destructor (lines 211-220) followed by removal of the
  handle;
* `copyAssign`   = `operator=(const copy_on_write&)` (lines 225-229):
  requires `this != &x`; builds a temporary copy (increment), swaps it in,
  releases the old reference;
* `moveAssign`   = `operator=(copy_on_write&&)` (lines 234-238): temporary
  move (nulls the source), swap, release of the old reference;
* `valueAssign`  = `operator=(U&&)` (lines 244-252): in-place when non-null
  and unique, otherwise a fresh cell swapped in with the old reference
  released;
* `write`        = `write()` (lines 263-267): when not unique,
  `*this = copy_on_write(read())`;
* `writeT`       = `write(transform, inplace)` (lines 282-296);
* `swapOp`       = the friend `swap` (lines 357-359). -/
def applyOp {T : Type} [Inhabited T] (cfg : Config T) : Op T → Option (Config T)
  | .defaultCtor =>
    match h : default_model cfg with
    | (d, cfg₁) =>
      match alookup cfg₁.cells d with
      | none => none
      | some cell =>
        let cfg₂ := { cfg₁ with cells := aset cfg₁.cells d ⟨cell.count + 1, cell.value⟩ }
        some (attachNew cfg₂ (some d)).2
  | .valueCtor v =>
    match h : newCell cfg v with
    | (c, cfg₁) => some (attachNew cfg₁ (some c)).2
  | .copyCtor src =>
    match alookup cfg.handles src with
    | some (some c) =>
      match alookup cfg.cells c with
      | some cell =>
        let cfg₁ := { cfg with cells := aset cfg.cells c ⟨cell.count + 1, cell.value⟩ }
        some (attachNew cfg₁ (some c)).2
      | none => none
    | _ => none
  | .moveCtor src =>
    match alookup cfg.handles src with
    | some (some c) =>
      let cfg₁ := { cfg with handles := aset cfg.handles src none }
      some (attachNew cfg₁ (some c)).2
    | _ => none
  | .destroy h =>
    match alookup cfg.handles h with
    | some r =>
      let cfg₁ := releaseRef cfg r
      some { cfg₁ with handles := aremove cfg₁.handles h }
    | none => none
  | .copyAssign dst src =>
    if dst = src then none
    else
      match alookup cfg.handles dst, alookup cfg.handles src with
      | some rd, some (some cs) =>
        match alookup cfg.cells cs with
        | some cell =>
          let cfg₁ := { cfg with cells := aset cfg.cells cs ⟨cell.count + 1, cell.value⟩ }
          let cfg₂ := { cfg₁ with handles := aset cfg₁.handles dst (some cs) }
          some (releaseRef cfg₂ rd)
        | none => none
      | _, _ => none
  | .moveAssign dst src =>
    match alookup cfg.handles src with
    | some (some cs) =>
      let cfg₁ := { cfg with handles := aset cfg.handles src none }
      match alookup cfg₁.handles dst with
      | some rd =>
        let cfg₂ := { cfg₁ with handles := aset cfg₁.handles dst (some cs) }
        some (releaseRef cfg₂ rd)
      | none => none
    | _ => none
  | .valueAssign h v =>
    match alookup cfg.handles h with
    | some (some c) =>
      match alookup cfg.cells c with
      | some cell =>
        if cell.count = 1 then
          some { cfg with cells := aset cfg.cells c ⟨cell.count, v⟩ }
        else
          match hn : newCell cfg v with
          | (n, cfg₁) =>
            let cfg₂ := releaseRef cfg₁ (some c)
            some { cfg₂ with handles := aset cfg₂.handles h (some n) }
      | none => none
    | some none =>
      match hn : newCell cfg v with
      | (n, cfg₁) => some { cfg₁ with handles := aset cfg₁.handles h (some n) }
    | none => none
  | .write h =>
    match alookup cfg.handles h with
    | some (some c) =>
      match alookup cfg.cells c with
      | some cell =>
        if cell.count = 1 then some cfg
        else
          match hn : newCell cfg cell.value with
          | (n, cfg₁) =>
            let cfg₂ := releaseRef cfg₁ (some c)
            some { cfg₂ with handles := aset cfg₂.handles h (some n) }
      | none => none
    | _ => none
  | .writeT h f g =>
    match alookup cfg.handles h with
    | some (some c) =>
      match alookup cfg.cells c with
      | some cell =>
        if cell.count = 1 then
          some { cfg with cells := aset cfg.cells c ⟨cell.count, g cell.value⟩ }
        else
          match hn : newCell cfg (f cell.value) with
          | (n, cfg₁) =>
            let cfg₂ := releaseRef cfg₁ (some c)
            some { cfg₂ with handles := aset cfg₂.handles h (some n) }
      | none => none
    | _ => none
  | .swapOp a b =>
    match alookup cfg.handles a, alookup cfg.handles b with
    | some ra, some rb =>
      some { cfg with handles := aset (aset cfg.handles a rb) b ra }
    | _, _ => none

/-- The observer `read()` (lines 301-305): the value of the referenced cell;
`none` when the handle is dead or null (the source asserts `_self`). -/
def read {T : Type} (cfg : Config T) (h : Nat) : Option T :=
  match alookup cfg.handles h with
  | some (some c) => (alookup cfg.cells c).map Cell.value
  | _ => none

/-- The observer `unique()` (lines 327-331): whether the referenced cell's
count is exactly 1. -/
def unique {T : Type} (cfg : Config T) (h : Nat) : Option Bool :=
  match alookup cfg.handles h with
  | some (some c) => (alookup cfg.cells c).map (fun cell => decide (cell.count = 1))
  | _ => none

/-- The observer `identity(x)` (lines 342-346): pointer equality of the two
`_self` cells; requires both handles non-null. -/
def identity {T : Type} (cfg : Config T) (a b : Nat) : Option Bool :=
  match alookup cfg.handles a, alookup cfg.handles b with
  | some (some ca), some (some cb) => some (decide (ca = cb))
  | _, _ => none

/-- The friend `operator<(const copy_on_write&, const copy_on_write&)`
(lines 365-367): `!x.identity(y) && (*x < *y)`, with the element type's
`operator<` given as `lt`.  Short-circuits on identity exactly as `&&`
does. -/
def lt_cow {T : Type} (lt : T → T → Bool) (cfg : Config T) (x y : Nat) : Option Bool :=
  (identity cfg x y).bind (fun b =>
    if b then some false
    else (read cfg x).bind (fun vx => (read cfg y).map (fun vy => lt vx vy)))

/-- The friend `operator==(const copy_on_write&, const copy_on_write&)`
(lines 413-415): `x.identity(y) || (*x == *y)`, short-circuiting on
identity. -/
def eq_cow {T : Type} (eq : T → T → Bool) (cfg : Config T) (x y : Nat) : Option Bool :=
  (identity cfg x y).bind (fun b =>
    if b then some true
    else (read cfg x).bind (fun vx => (read cfg y).map (fun vy => eq vx vy)))

/-- The friend `operator>` (lines 377-379): `y < x`. -/
def gt_cow {T : Type} (lt : T → T → Bool) (cfg : Config T) (x y : Nat) : Option Bool :=
  lt_cow lt cfg y x

/-- The friend `operator<=` (lines 389-391): `!(y < x)`. -/
def le_cow {T : Type} (lt : T → T → Bool) (cfg : Config T) (x y : Nat) : Option Bool :=
  (lt_cow lt cfg y x).map (fun b => !b)

/-- The friend `operator>=` (lines 401-403): `!(x < y)`. -/
def ge_cow {T : Type} (lt : T → T → Bool) (cfg : Config T) (x y : Nat) : Option Bool :=
  (lt_cow lt cfg x y).map (fun b => !b)

/-- The friend `operator!=` (lines 425-427): `!(x == y)`. -/
def ne_cow {T : Type} (eq : T → T → Bool) (cfg : Config T) (x y : Nat) : Option Bool :=
  (eq_cow eq cfg x y).map (fun b => !b)

/-- `operator<(const copy_on_write&, const element_type&)` (lines 369-371):
`*x < y`. -/
def lt_cow_hv {T : Type} (lt : T → T → Bool) (cfg : Config T) (x : Nat) (w : T) :
    Option Bool :=
  (read cfg x).map (fun vx => lt vx w)

/-- `operator<(const element_type&, const copy_on_write&)` (lines 373-375):
`x < *y`. -/
def lt_cow_vh {T : Type} (lt : T → T → Bool) (cfg : Config T) (w : T) (y : Nat) :
    Option Bool :=
  (read cfg y).map (fun vy => lt w vy)

/-- `operator>(const copy_on_write&, const element_type&)` (lines 381-383):
`y < x`. -/
def gt_cow_hv {T : Type} (lt : T → T → Bool) (cfg : Config T) (x : Nat) (w : T) :
    Option Bool :=
  lt_cow_vh lt cfg w x

/-- `operator>(const element_type&, const copy_on_write&)` (lines 385-387):
`y < x`. -/
def gt_cow_vh {T : Type} (lt : T → T → Bool) (cfg : Config T) (w : T) (y : Nat) :
    Option Bool :=
  lt_cow_hv lt cfg y w

/-- `operator<=(const copy_on_write&, const element_type&)` (lines 393-395):
`!(y < x)`. -/
def le_cow_hv {T : Type} (lt : T → T → Bool) (cfg : Config T) (x : Nat) (w : T) :
    Option Bool :=
  (lt_cow_vh lt cfg w x).map (fun b => !b)

/-- `operator<=(const element_type&, const copy_on_write&)` (lines 397-399):
`!(y < x)`. -/
def le_cow_vh {T : Type} (lt : T → T → Bool) (cfg : Config T) (w : T) (y : Nat) :
    Option Bool :=
  (lt_cow_hv lt cfg y w).map (fun b => !b)

/-- `operator>=(const copy_on_write&, const element_type&)` (lines 405-407):
`!(x < y)`. -/
def ge_cow_hv {T : Type} (lt : T → T → Bool) (cfg : Config T) (x : Nat) (w : T) :
    Option Bool :=
  (lt_cow_hv lt cfg x w).map (fun b => !b)

/-- `operator>=(const element_type&, const copy_on_write&)` (lines 409-411):
`!(x < y)`. -/
def ge_cow_vh {T : Type} (lt : T → T → Bool) (cfg : Config T) (w : T) (y : Nat) :
    Option Bool :=
  (lt_cow_vh lt cfg w y).map (fun b => !b)

/-- `operator==(const copy_on_write&, const element_type&)` (lines 417-419):
`*x == y`. -/
def eq_cow_hv {T : Type} (eq : T → T → Bool) (cfg : Config T) (x : Nat) (w : T) :
    Option Bool :=
  (read cfg x).map (fun vx => eq vx w)

/-- `operator==(const element_type&, const copy_on_write&)` (lines 421-423):
`x == *y`. -/
def eq_cow_vh {T : Type} (eq : T → T → Bool) (cfg : Config T) (w : T) (y : Nat) :
    Option Bool :=
  (read cfg y).map (fun vy => eq w vy)

/-- Fallible value-forwarding construction: the element constructor may fail
(`Except.error e` models a C++ exception `e`).  On failure the exception is
propagated and no cell is left allocated (line 181: the throw happens inside
`new model(...)`, before the handle is formed); the configuration returned
alongside the exception is the state at the point the exception escapes. -/
def valueCtorF {T E : Type} (cfg : Config T) (mk : Except E T) : Config T × Option E :=
  match mk with
  | .error e => (cfg, some e)
  | .ok v =>
    match newCell cfg v with
    | (c, cfg₁) => ((attachNew cfg₁ (some c)).2, none)

/-- Fallible `write()` (lines 263-267), with the element copy constructor
given as `copyFn`.  In the non-unique branch the copy runs inside
`copy_on_write(read())` before `*this` is touched, so on failure the
exception propagates with the configuration unchanged. -/
def writeF {T E : Type} (copyFn : T → Except E T) (cfg : Config T) (h : Nat) :
    Option (Config T × Option E) :=
  match alookup cfg.handles h with
  | some (some c) =>
    match alookup cfg.cells c with
    | some cell =>
      if cell.count = 1 then some (cfg, none)
      else
        match copyFn cell.value with
        | .error e => some (cfg, some e)
        | .ok v =>
          match newCell cfg v with
          | (n, cfg₁) =>
            let cfg₂ := releaseRef cfg₁ (some c)
            some ({ cfg₂ with handles := aset cfg₂.handles h (some n) }, none)
    | none => none
  | _ => none

/-- Fallible `write(transform, inplace)` (lines 282-296): the transform runs
inside `copy_on_write(transform(read()))` before `*this` is touched, so a
transform failure propagates with the configuration unchanged; an inplace
failure propagates as well. -/
def writeTF {T E : Type} (f g : T → Except E T) (cfg : Config T) (h : Nat) :
    Option (Config T × Option E) :=
  match alookup cfg.handles h with
  | some (some c) =>
    match alookup cfg.cells c with
    | some cell =>
      if cell.count = 1 then
        match g cell.value with
        | .error e => some (cfg, some e)
        | .ok w => some ({ cfg with cells := aset cfg.cells c ⟨cell.count, w⟩ }, none)
      else
        match f cell.value with
        | .error e => some (cfg, some e)
        | .ok v =>
          match newCell cfg v with
          | (n, cfg₁) =>
            let cfg₂ := releaseRef cfg₁ (some c)
            some ({ cfg₂ with handles := aset cfg₂.handles h (some n) }, none)
    | none => none
  | _ => none

/-- Fallible `operator=(U&&)` (lines 244-252): `asg` is the element
assignment used in the unique branch, `mk` the element construction used by
`copy_on_write(std::forward<U>(x))` in the other branch.  In the latter the
construction runs before `*this` is touched, so on failure the exception
propagates with the configuration unchanged. -/
def valueAssignF {T E : Type} (cfg : Config T) (h : Nat) (asg : T → Except E T)
    (mk : Except E T) : Option (Config T × Option E) :=
  match alookup cfg.handles h with
  | some (some c) =>
    match alookup cfg.cells c with
    | some cell =>
      if cell.count = 1 then
        match asg cell.value with
        | .error e => some (cfg, some e)
        | .ok w => some ({ cfg with cells := aset cfg.cells c ⟨cell.count, w⟩ }, none)
      else
        match mk with
        | .error e => some (cfg, some e)
        | .ok v =>
          match newCell cfg v with
          | (n, cfg₁) =>
            let cfg₂ := releaseRef cfg₁ (some c)
            some ({ cfg₂ with handles := aset cfg₂.handles h (some n) }, none)
    | none => none
  | some none =>
    match mk with
    | .error e => some (cfg, some e)
    | .ok v =>
      match newCell cfg v with
      | (n, cfg₁) => some ({ cfg₁ with handles := aset cfg₁.handles h (some n) }, none)
  | none => none

/-- Fallible `operator<` on two handles (lines 365-367), with the element
comparison given as `ltf`: a failure in the element comparison propagates
unchanged; identical handles short-circuit and never run the element
comparison. -/
def ltF {T E : Type} (ltf : T → T → Except E Bool) (cfg : Config T) (x y : Nat) :
    Option (Except E Bool) :=
  (identity cfg x y).bind (fun b =>
    if b then some (Except.ok false)
    else (read cfg x).bind (fun vx => (read cfg y).map (fun vy => ltf vx vy)))

/-- The initial configuration: no cells, no handles, no default cell yet. -/
def initConfig {T : Type} : Config T :=
  { cells := [], nextId := 0, defaultCell := none, handles := [], nextHandle := 0 }

/-- A configuration reachable from the empty initial configuration by API
calls. -/
inductive Reachable {T : Type} [Inhabited T] : Config T → Prop where
  | init : Reachable initConfig
  | step {cfg cfg' : Config T} (op : Op T) :
      Reachable cfg → applyOp cfg op = some cfg' → Reachable cfg'

/-- Decidable check that the default cell, when present, exists in the heap
and has an id below the allocation counter. -/
def defaultOkB {T : Type} (cfg : Config T) : Bool :=
  match cfg.defaultCell with
  | none => true
  | some d => (alookup cfg.cells d).isSome && decide (d < cfg.nextId)

/-- Decidable check that a handle reference, when non-null, is below the
given allocation counter. -/
def refLtB : Option Nat → Nat → Bool
  | none, _ => true
  | some c, n => decide (c < n)

/-- Well-formedness of a configuration: distinct cell keys, distinct handle
keys, all keys below the respective counters, all handle references below the
allocation counter, a valid default cell, and the central invariant: each
cell's count equals the number of handles referencing it plus the permanent
extra unit of the default cell. -/
def WF {T : Type} (cfg : Config T) : Prop :=
  (cfg.cells.map Prod.fst).Nodup ∧
  (cfg.handles.map Prod.fst).Nodup ∧
  (∀ k ∈ cfg.cells.map Prod.fst, k < cfg.nextId) ∧
  (∀ k ∈ cfg.handles.map Prod.fst, k < cfg.nextHandle) ∧
  (∀ p ∈ cfg.handles, refLtB p.2 cfg.nextId = true) ∧
  defaultOkB cfg = true ∧
  (∀ p ∈ cfg.cells, p.2.count = refCount cfg p.1 + baseline cfg p.1)


theorem alookup_cons {α : Type} (k : Nat) (a : α) (rest : List (Nat × α)) (i : Nat) :
    alookup ((k, a) :: rest) i = if i = k then some a else alookup rest i := rfl

theorem aset_cons {α : Type} (k : Nat) (a : α) (rest : List (Nat × α)) (i : Nat) (v : α) :
    aset ((k, a) :: rest) i v
      = if i = k then (k, v) :: rest else (k, a) :: aset rest i v := rfl

theorem aremove_cons {α : Type} (k : Nat) (a : α) (rest : List (Nat × α)) (i : Nat) :
    aremove ((k, a) :: rest) i = if i = k then rest else (k, a) :: aremove rest i := rfl

theorem refCountH_cons (k : Nat) (r : Option Nat) (rest : List (Nat × Option Nat))
    (c : Nat) :
    refCountH ((k, r) :: rest) c = (if r = some c then 1 else 0) + refCountH rest c := rfl

theorem alookup_mem {α : Type} {L : List (Nat × α)} {i : Nat} {a : α}
    (h : alookup L i = some a) : (i, a) ∈ L := by
  induction L with
  | nil => exact absurd h (by simp [alookup])
  | cons p rest ih =>
    obtain ⟨k, b⟩ := p
    rw [alookup_cons] at h
    by_cases hik : i = k
    · rw [if_pos hik] at h
      obtain rfl := Option.some.inj h
      exact hik ▸ List.mem_cons_self _ _
    · rw [if_neg hik] at h
      exact List.mem_cons_of_mem _ (ih h)

theorem alookup_none_of_not_mem {α : Type} {L : List (Nat × α)} {i : Nat}
    (h : i ∉ L.map Prod.fst) : alookup L i = none := by
  induction L with
  | nil => rfl
  | cons p rest ih =>
    obtain ⟨k, b⟩ := p
    simp only [List.map_cons, List.mem_cons] at h
    push_neg at h
    rw [alookup_cons, if_neg h.1]
    exact ih h.2

theorem mem_alookup {α : Type} {L : List (Nat × α)} {i : Nat} {a : α}
    (hnd : (L.map Prod.fst).Nodup) (h : (i, a) ∈ L) : alookup L i = some a := by
  induction L with
  | nil => exact absurd h (by simp)
  | cons p rest ih =>
    obtain ⟨k, b⟩ := p
    simp only [List.map_cons, List.nodup_cons] at hnd
    rcases List.mem_cons.1 h with h1 | h2
    · injection h1 with h1a h1b
      subst h1a
      subst h1b
      rw [alookup_cons, if_pos rfl]
    · by_cases hik : i = k
      · subst hik
        exact absurd (List.mem_map.2 ⟨(i, a), h2, rfl⟩) hnd.1
      · rw [alookup_cons, if_neg hik]
        exact ih hnd.2 h2

theorem alookup_none_of_ub {α : Type} {L : List (Nat × α)} {n : Nat}
    (h : ∀ k ∈ L.map Prod.fst, k < n) : alookup L n = none :=
  alookup_none_of_not_mem fun hm => absurd (h n hm) (lt_irrefl n)

theorem aset_keys {α : Type} (L : List (Nat × α)) (i : Nat) (v : α) :
    (aset L i v).map Prod.fst = L.map Prod.fst := by
  induction L with
  | nil => rfl
  | cons p rest ih =>
    obtain ⟨k, b⟩ := p
    rw [aset_cons]
    by_cases hik : i = k
    · rw [if_pos hik]
      rfl
    · rw [if_neg hik]
      simp only [List.map_cons, ih]

theorem alookup_aset_self {α : Type} {L : List (Nat × α)} {i : Nat}
    (h : (alookup L i).isSome) (v : α) : alookup (aset L i v) i = some v := by
  induction L with
  | nil => exact absurd h (by simp [alookup])
  | cons p rest ih =>
    obtain ⟨k, b⟩ := p
    rw [alookup_cons] at h
    rw [aset_cons]
    by_cases hik : i = k
    · rw [if_pos hik, alookup_cons, if_pos hik]
    · rw [if_neg hik] at h
      rw [if_neg hik, alookup_cons, if_neg hik]
      exact ih h

theorem alookup_aset_ne {α : Type} {L : List (Nat × α)} {i j : Nat} (v : α)
    (hij : i ≠ j) : alookup (aset L j v) i = alookup L i := by
  induction L with
  | nil => rfl
  | cons p rest ih =>
    obtain ⟨k, b⟩ := p
    rw [aset_cons]
    by_cases hjk : j = k
    · subst hjk
      rw [if_pos rfl, alookup_cons, alookup_cons, if_neg hij, if_neg hij]
    · rw [if_neg hjk, alookup_cons, alookup_cons]
      by_cases hik : i = k
      · rw [if_pos hik, if_pos hik]
      · rw [if_neg hik, if_neg hik]
        exact ih

theorem aset_of_none {α : Type} {L : List (Nat × α)} {j : Nat}
    (h : alookup L j = none) (v : α) : aset L j v = L := by
  induction L with
  | nil => rfl
  | cons p rest ih =>
    obtain ⟨k, b⟩ := p
    rw [alookup_cons] at h
    rw [aset_cons]
    by_cases hjk : j = k
    · rw [if_pos hjk] at h
      exact absurd h (by simp)
    · rw [if_neg hjk] at h
      rw [if_neg hjk, ih h]

theorem aremove_keys_mem {α : Type} {L : List (Nat × α)} {i k : Nat}
    (h : k ∈ (aremove L i).map Prod.fst) : k ∈ L.map Prod.fst := by
  induction L with
  | nil => exact absurd h (by simp [aremove])
  | cons p rest ih =>
    obtain ⟨k0, b⟩ := p
    rw [aremove_cons] at h
    by_cases hik : i = k0
    · rw [if_pos hik] at h
      simp only [List.map_cons, List.mem_cons]
      exact Or.inr h
    · rw [if_neg hik] at h
      simp only [List.map_cons, List.mem_cons] at h ⊢
      rcases h with h | h
      · exact Or.inl h
      · exact Or.inr (ih h)

theorem aremove_nodup {α : Type} {L : List (Nat × α)} {i : Nat}
    (h : (L.map Prod.fst).Nodup) : ((aremove L i).map Prod.fst).Nodup := by
  induction L with
  | nil => exact h
  | cons p rest ih =>
    obtain ⟨k, b⟩ := p
    simp only [List.map_cons, List.nodup_cons] at h
    rw [aremove_cons]
    by_cases hik : i = k
    · rw [if_pos hik]
      exact h.2
    · rw [if_neg hik]
      simp only [List.map_cons, List.nodup_cons]
      exact ⟨fun hm => h.1 (aremove_keys_mem hm), ih h.2⟩

theorem alookup_aremove_self {α : Type} {L : List (Nat × α)} {i : Nat}
    (hnd : (L.map Prod.fst).Nodup) : alookup (aremove L i) i = none := by
  induction L with
  | nil => rfl
  | cons p rest ih =>
    obtain ⟨k, b⟩ := p
    simp only [List.map_cons, List.nodup_cons] at hnd
    rw [aremove_cons]
    by_cases hik : i = k
    · rw [if_pos hik]
      subst hik
      exact alookup_none_of_not_mem hnd.1
    · rw [if_neg hik, alookup_cons, if_neg hik]
      exact ih hnd.2

theorem alookup_aremove_ne {α : Type} {L : List (Nat × α)} {i j : Nat}
    (hij : i ≠ j) : alookup (aremove L j) i = alookup L i := by
  induction L with
  | nil => rfl
  | cons p rest ih =>
    obtain ⟨k, b⟩ := p
    rw [aremove_cons]
    by_cases hjk : j = k
    · subst hjk
      rw [if_pos rfl, alookup_cons, if_neg hij]
    · rw [if_neg hjk, alookup_cons, alookup_cons]
      by_cases hik : i = k
      · rw [if_pos hik, if_pos hik]
      · rw [if_neg hik, if_neg hik]
        exact ih

theorem refCountH_aset {H : List (Nat × Option Nat)} {h0 : Nat} {r : Option Nat}
    (h : alookup H h0 = some r) (r' : Option Nat) (c : Nat) :
    refCountH (aset H h0 r') c + (if r = some c then 1 else 0)
      = refCountH H c + (if r' = some c then 1 else 0) := by
  induction H with
  | nil => exact absurd h (by simp [alookup])
  | cons p rest ih =>
    obtain ⟨k, b⟩ := p
    rw [alookup_cons] at h
    rw [aset_cons]
    by_cases hik : h0 = k
    · rw [if_pos hik] at h
      obtain rfl := Option.some.inj h
      rw [if_pos hik, refCountH_cons, refCountH_cons]
      omega
    · rw [if_neg hik] at h
      rw [if_neg hik, refCountH_cons, refCountH_cons]
      have := ih h
      omega

theorem refCountH_aremove {H : List (Nat × Option Nat)} {h0 : Nat} {r : Option Nat}
    (h : alookup H h0 = some r) (c : Nat) :
    refCountH (aremove H h0) c + (if r = some c then 1 else 0) = refCountH H c := by
  induction H with
  | nil => exact absurd h (by simp [alookup])
  | cons p rest ih =>
    obtain ⟨k, b⟩ := p
    rw [alookup_cons] at h
    rw [aremove_cons]
    by_cases hik : h0 = k
    · rw [if_pos hik] at h
      obtain rfl := Option.some.inj h
      rw [if_pos hik, refCountH_cons]
      omega
    · rw [if_neg hik] at h
      rw [if_neg hik, refCountH_cons, refCountH_cons]
      have := ih h
      omega

theorem refCountH_pos {H : List (Nat × Option Nat)} {h0 c : Nat}
    (h : alookup H h0 = some (some c)) : 1 ≤ refCountH H c := by
  induction H with
  | nil => exact absurd h (by simp [alookup])
  | cons p rest ih =>
    obtain ⟨k, b⟩ := p
    rw [alookup_cons] at h
    rw [refCountH_cons]
    by_cases hik : h0 = k
    · rw [if_pos hik] at h
      obtain rfl := Option.some.inj h
      simp
    · rw [if_neg hik] at h
      have := ih h
      omega

theorem refCountH_two {H : List (Nat × Option Nat)} {a b c : Nat} (hne : a ≠ b)
    (ha : alookup H a = some (some c)) (hb : alookup H b = some (some c)) :
    2 ≤ refCountH H c := by
  induction H with
  | nil => exact absurd ha (by simp [alookup])
  | cons p rest ih =>
    obtain ⟨k, r⟩ := p
    rw [alookup_cons] at ha hb
    rw [refCountH_cons]
    by_cases hak : a = k
    · rw [if_pos hak] at ha
      obtain rfl := Option.some.inj ha
      have hbk : ¬b = k := fun he => hne (by rw [hak, ← he])
      rw [if_neg hbk] at hb
      have := refCountH_pos hb
      rw [if_pos rfl]
      omega
    · rw [if_neg hak] at ha
      by_cases hbk : b = k
      · rw [if_pos hbk] at hb
        obtain rfl := Option.some.inj hb
        have := refCountH_pos ha
        rw [if_pos rfl]
        omega
      · rw [if_neg hbk] at hb
        have := ih ha hb
        omega

theorem aset_mem {α : Type} {L : List (Nat × α)} {i : Nat} {v : α} {p : Nat × α}
    (h : p ∈ aset L i v) : p = (i, v) ∨ p ∈ L := by
  induction L with
  | nil => exact absurd h (by simp [aset])
  | cons q rest ih =>
    obtain ⟨k, b⟩ := q
    rw [aset_cons] at h
    by_cases hik : i = k
    · rw [if_pos hik] at h
      rcases List.mem_cons.1 h with h0 | h0
      · subst hik
        exact Or.inl h0
      · exact Or.inr (List.mem_cons_of_mem _ h0)
    · rw [if_neg hik] at h
      rcases List.mem_cons.1 h with h0 | h0
      · exact Or.inr (h0 ▸ List.mem_cons_self _ _)
      · rcases ih h0 with h5 | h5
        · exact Or.inl h5
        · exact Or.inr (List.mem_cons_of_mem _ h5)

theorem aremove_mem {α : Type} {L : List (Nat × α)} {i : Nat} {p : Nat × α}
    (h : p ∈ aremove L i) : p ∈ L := by
  induction L with
  | nil => exact absurd h (by simp [aremove])
  | cons q rest ih =>
    obtain ⟨k, b⟩ := q
    rw [aremove_cons] at h
    by_cases hik : i = k
    · rw [if_pos hik] at h
      exact List.mem_cons_of_mem _ h
    · rw [if_neg hik] at h
      rcases List.mem_cons.1 h with h0 | h0
      · exact h0 ▸ List.mem_cons_self _ _
      · exact List.mem_cons_of_mem _ (ih h0)

theorem refLtB_some {c n : Nat} (h : refLtB (some c) n = true) : c < n := by
  simpa [refLtB] using h

theorem refCountH_zero {H : List (Nat × Option Nat)} {n : Nat}
    (h : ∀ p ∈ H, refLtB p.2 n = true) : refCountH H n = 0 := by
  induction H with
  | nil => rfl
  | cons p rest ih =>
    obtain ⟨k, r⟩ := p
    rw [refCountH_cons]
    have hr : refLtB r n = true := h (k, r) (List.mem_cons_self _ _)
    have hrest : refCountH rest n = 0 :=
      ih fun q hq => h q (List.mem_cons_of_mem _ hq)
    cases r with
    | none => simpa using hrest
    | some c =>
      have : c < n := refLtB_some hr
      have : ¬(some c = some n) := fun he => absurd (Option.some.inj he ▸ this) (lt_irrefl _)
      rw [if_neg this, hrest]

theorem defaultOkB_some {T : Type} {cfg : Config T} (h : defaultOkB cfg = true)
    {d : Nat} (hd : cfg.defaultCell = some d) :
    (alookup cfg.cells d).isSome = true ∧ d < cfg.nextId := by
  unfold defaultOkB at h
  rw [hd] at h
  simpa using h

theorem baseline_ne {T : Type} {cfg : Config T} {c : Nat}
    (h : cfg.defaultCell ≠ some c) : baseline cfg c = 0 := by
  simp [baseline, h]

theorem releaseRef_missing {T : Type} (cfg : Config T) {c : Nat}
    (hc : alookup cfg.cells c = none) : releaseRef cfg (some c) = cfg := by
  unfold releaseRef
  simp [hc]

theorem releaseRef_last {T : Type} (cfg : Config T) {c : Nat} {cell : Cell T}
    (hc : alookup cfg.cells c = some cell) (h1 : cell.count = 1) :
    releaseRef cfg (some c) = { cfg with cells := aremove cfg.cells c } := by
  unfold releaseRef
  simp [hc, h1]

theorem releaseRef_dec {T : Type} (cfg : Config T) {c : Nat} {cell : Cell T}
    (hc : alookup cfg.cells c = some cell) (h1 : cell.count ≠ 1) :
    releaseRef cfg (some c)
      = { cfg with cells := aset cfg.cells c ⟨cell.count - 1, cell.value⟩ } := by
  unfold releaseRef
  simp [hc, h1]

theorem releaseRef_handles_comm {T : Type} (cfg : Config T) (r : Option Nat)
    (H : List (Nat × Option Nat)) :
    { releaseRef cfg r with handles := H } = releaseRef { cfg with handles := H } r := by
  cases r with
  | none => rfl
  | some c =>
    cases hc : alookup cfg.cells c with
    | none =>
      rw [releaseRef_missing cfg hc, releaseRef_missing { cfg with handles := H } hc]
    | some cell =>
      by_cases h1 : cell.count = 1
      · rw [releaseRef_last cfg hc h1, releaseRef_last { cfg with handles := H } hc h1]
      · rw [releaseRef_dec cfg hc h1, releaseRef_dec { cfg with handles := H } hc h1]

theorem release_restores {T : Type} {cfg : Config T} {rd : Option Nat}
    (h1 : (cfg.cells.map Prod.fst).Nodup)
    (h2 : (cfg.handles.map Prod.fst).Nodup)
    (h3 : ∀ k ∈ cfg.cells.map Prod.fst, k < cfg.nextId)
    (h4 : ∀ k ∈ cfg.handles.map Prod.fst, k < cfg.nextHandle)
    (h5 : ∀ p ∈ cfg.handles, refLtB p.2 cfg.nextId = true)
    (h6 : defaultOkB cfg = true)
    (h7 : ∀ p ∈ cfg.cells, p.2.count
            = refCountH cfg.handles p.1 + baseline cfg p.1
              + (if rd = some p.1 then 1 else 0)) :
    WF (releaseRef cfg rd) := by
  cases rd with
  | none =>
    refine ⟨h1, h2, h3, h4, h5, h6, ?_⟩
    intro p hp
    have h := h7 p hp
    rw [if_neg (by simp)] at h
    simpa [refCount] using h
  | some cd =>
    cases hcd : alookup cfg.cells cd with
    | none =>
      rw [releaseRef_missing cfg hcd]
      refine ⟨h1, h2, h3, h4, h5, h6, ?_⟩
      intro p hp
      have h := h7 p hp
      have hne : ¬(some cd = some p.1) := by
        intro he
        obtain rfl := Option.some.inj he
        rw [mem_alookup h1 hp] at hcd
        exact absurd hcd (by simp)
      rw [if_neg hne] at h
      simpa [refCount] using h
    | some cellD =>
      have hmemD : (cd, cellD) ∈ cfg.cells := alookup_mem hcd
      have hD := h7 (cd, cellD) hmemD
      rw [if_pos rfl] at hD
      have hDc : cellD.count = refCountH cfg.handles cd + baseline cfg cd + 1 := hD
      by_cases hone : cellD.count = 1
      · -- previous count 1: the cell is removed; it had no referencing handle left
        rw [releaseRef_last cfg hcd hone]
        have hz : refCountH cfg.handles cd = 0 ∧ baseline cfg cd = 0 := by
          constructor <;> omega
        have hdne : cfg.defaultCell ≠ some cd := by
          intro he
          have : baseline cfg cd = 1 := by simp [baseline, he]
          omega
        have hnd' : ((aremove cfg.cells cd).map Prod.fst).Nodup := aremove_nodup h1
        refine ⟨hnd', h2, ?_, h4, h5, ?_, ?_⟩
        · intro k hk
          exact h3 k (aremove_keys_mem hk)
        · unfold defaultOkB
          cases hdc : cfg.defaultCell with
          | none => simp
          | some d =>
            have hdd : d ≠ cd := fun he => hdne (he ▸ hdc)
            have hsome := defaultOkB_some h6 hdc
            simp [alookup_aremove_ne hdd, hsome.1, hsome.2]
        · intro p hp
          have hpc : p ∈ cfg.cells := aremove_mem hp
          have hl : alookup (aremove cfg.cells cd) p.1 = some p.2 :=
            mem_alookup hnd' hp
          have hpne : p.1 ≠ cd := by
            intro he
            rw [he, alookup_aremove_self h1] at hl
            exact absurd hl (by simp)
          have h := h7 p hpc
          rw [if_neg (fun he => hpne (Option.some.inj he).symm)] at h
          simpa [refCount, baseline] using h
      · -- otherwise the count is decremented; the cell stays
        rw [releaseRef_dec cfg hcd hone]
        have hk : (aset cfg.cells cd ⟨cellD.count - 1, cellD.value⟩).map Prod.fst
            = cfg.cells.map Prod.fst := aset_keys _ _ _
        refine ⟨hk ▸ h1, h2, ?_, h4, h5, ?_, ?_⟩
        · intro k hkm
          exact h3 k (hk ▸ hkm)
        · unfold defaultOkB
          cases hdc : cfg.defaultCell with
          | none => simp
          | some d =>
            have hsome := defaultOkB_some h6 hdc
            by_cases hdd : d = cd
            · subst hdd
              simp [alookup_aset_self (by rw [hcd]; rfl), hsome.2]
            · simp [alookup_aset_ne _ hdd, hsome.1, hsome.2]
        · intro p hp
          have hnd' : ((aset cfg.cells cd ⟨cellD.count - 1, cellD.value⟩).map
              Prod.fst).Nodup := hk ▸ h1
          have hl := mem_alookup hnd' hp
          by_cases hpcd : p.1 = cd
          · rw [hpcd, alookup_aset_self (by rw [hcd]; rfl)] at hl
            have h2v : p.2 = ⟨cellD.count - 1, cellD.value⟩ := Option.some.inj hl.symm
            show p.2.count = refCount _ p.1 + baseline _ p.1
            rw [h2v, hpcd]
            show cellD.count - 1
                = refCountH cfg.handles cd + baseline cfg cd
            omega
          · rw [alookup_aset_ne _ hpcd] at hl
            have h := h7 p (alookup_mem hl)
            rw [if_neg (fun he => hpcd (Option.some.inj he).symm)] at h
            simpa [refCount, baseline] using h

theorem releaseRef_handles {T : Type} (cfg : Config T) (r : Option Nat) :
    (releaseRef cfg r).handles = cfg.handles := by
  cases r with
  | none => rfl
  | some c =>
    cases hc : alookup cfg.cells c with
    | none => rw [releaseRef_missing cfg hc]
    | some cell =>
      by_cases h1 : cell.count = 1
      · rw [releaseRef_last cfg hc h1]
      · rw [releaseRef_dec cfg hc h1]

theorem applyOp_defaultCtor_fresh {T : Type} [Inhabited T] (cfg : Config T)
    (hd : cfg.defaultCell = none) :
    applyOp cfg Op.defaultCtor
      = some { cfg with
          cells := (cfg.nextId, ⟨2, default⟩) :: cfg.cells,
          nextId := cfg.nextId + 1,
          defaultCell := some cfg.nextId,
          handles := (cfg.nextHandle, some cfg.nextId) :: cfg.handles,
          nextHandle := cfg.nextHandle + 1 } := by
  unfold applyOp default_model
  simp [hd, attachNew, alookup_cons, aset_cons]

theorem applyOp_defaultCtor_existing {T : Type} [Inhabited T] (cfg : Config T)
    {d : Nat} {cell : Cell T} (hd : cfg.defaultCell = some d)
    (hc : alookup cfg.cells d = some cell) :
    applyOp cfg Op.defaultCtor
      = some { cfg with
          cells := aset cfg.cells d ⟨cell.count + 1, cell.value⟩,
          handles := (cfg.nextHandle, some d) :: cfg.handles,
          nextHandle := cfg.nextHandle + 1 } := by
  unfold applyOp default_model
  simp [hd, hc, attachNew]

theorem applyOp_valueCtor {T : Type} [Inhabited T] (cfg : Config T) (v : T) :
    applyOp cfg (Op.valueCtor v)
      = some { cfg with
          cells := (cfg.nextId, ⟨1, v⟩) :: cfg.cells,
          nextId := cfg.nextId + 1,
          handles := (cfg.nextHandle, some cfg.nextId) :: cfg.handles,
          nextHandle := cfg.nextHandle + 1 } := by
  unfold applyOp newCell
  simp [attachNew]

theorem applyOp_copyCtor {T : Type} [Inhabited T] (cfg : Config T) {src c : Nat}
    {cell : Cell T} (hs : alookup cfg.handles src = some (some c))
    (hc : alookup cfg.cells c = some cell) :
    applyOp cfg (Op.copyCtor src)
      = some { cfg with
          cells := aset cfg.cells c ⟨cell.count + 1, cell.value⟩,
          handles := (cfg.nextHandle, some c) :: cfg.handles,
          nextHandle := cfg.nextHandle + 1 } := by
  unfold applyOp
  simp [hs, hc, attachNew]

theorem applyOp_moveCtor {T : Type} [Inhabited T] (cfg : Config T) {src c : Nat}
    (hs : alookup cfg.handles src = some (some c)) :
    applyOp cfg (Op.moveCtor src)
      = some { cfg with
          handles := (cfg.nextHandle, some c) :: aset cfg.handles src none,
          nextHandle := cfg.nextHandle + 1 } := by
  unfold applyOp
  simp [hs, attachNew]

theorem applyOp_destroy {T : Type} [Inhabited T] (cfg : Config T) {h : Nat}
    {r : Option Nat} (hh : alookup cfg.handles h = some r) :
    applyOp cfg (Op.destroy h)
      = some { releaseRef cfg r with handles := aremove cfg.handles h } := by
  unfold applyOp
  simp [hh, releaseRef_handles]

theorem applyOp_copyAssign {T : Type} [Inhabited T] (cfg : Config T)
    {dst src cs : Nat} {rd : Option Nat} {cell : Cell T} (hne : dst ≠ src)
    (hd : alookup cfg.handles dst = some rd)
    (hs : alookup cfg.handles src = some (some cs))
    (hc : alookup cfg.cells cs = some cell) :
    applyOp cfg (Op.copyAssign dst src)
      = some (releaseRef
          { cfg with
            cells := aset cfg.cells cs ⟨cell.count + 1, cell.value⟩,
            handles := aset cfg.handles dst (some cs) } rd) := by
  unfold applyOp
  simp [hne, hd, hs, hc]

theorem applyOp_moveAssign {T : Type} [Inhabited T] (cfg : Config T)
    {dst src cs : Nat} {rd : Option Nat}
    (hs : alookup cfg.handles src = some (some cs))
    (hd : alookup (aset cfg.handles src none) dst = some rd) :
    applyOp cfg (Op.moveAssign dst src)
      = some (releaseRef
          { cfg with
            handles := aset (aset cfg.handles src none) dst (some cs) } rd) := by
  unfold applyOp
  simp [hs, hd]

theorem applyOp_valueAssign_inplace {T : Type} [Inhabited T] (cfg : Config T)
    {h c : Nat} {cell : Cell T} (v : T)
    (hh : alookup cfg.handles h = some (some c))
    (hc : alookup cfg.cells c = some cell) (hcnt : cell.count = 1) :
    applyOp cfg (Op.valueAssign h v)
      = some { cfg with cells := aset cfg.cells c ⟨cell.count, v⟩ } := by
  unfold applyOp
  simp [hh, hc, hcnt]

theorem applyOp_valueAssign_shared {T : Type} [Inhabited T] (cfg : Config T)
    {h c : Nat} {cell : Cell T} (v : T)
    (hh : alookup cfg.handles h = some (some c))
    (hc : alookup cfg.cells c = some cell) (hcnt : cell.count ≠ 1) :
    applyOp cfg (Op.valueAssign h v)
      = some { releaseRef
            { cfg with cells := (cfg.nextId, ⟨1, v⟩) :: cfg.cells,
                       nextId := cfg.nextId + 1 } (some c)
          with handles := aset cfg.handles h (some cfg.nextId) } := by
  unfold applyOp newCell
  simp [hh, hc, hcnt, releaseRef_handles]

theorem applyOp_valueAssign_null {T : Type} [Inhabited T] (cfg : Config T)
    {h : Nat} (v : T) (hh : alookup cfg.handles h = some none) :
    applyOp cfg (Op.valueAssign h v)
      = some { cfg with
          cells := (cfg.nextId, ⟨1, v⟩) :: cfg.cells,
          nextId := cfg.nextId + 1,
          handles := aset cfg.handles h (some cfg.nextId) } := by
  unfold applyOp newCell
  simp [hh]

theorem applyOp_write_unique {T : Type} [Inhabited T] (cfg : Config T)
    {h c : Nat} {cell : Cell T}
    (hh : alookup cfg.handles h = some (some c))
    (hc : alookup cfg.cells c = some cell) (hcnt : cell.count = 1) :
    applyOp cfg (Op.write h) = some cfg := by
  unfold applyOp
  simp [hh, hc, hcnt]

theorem applyOp_write_shared {T : Type} [Inhabited T] (cfg : Config T)
    {h c : Nat} {cell : Cell T}
    (hh : alookup cfg.handles h = some (some c))
    (hc : alookup cfg.cells c = some cell) (hcnt : cell.count ≠ 1) :
    applyOp cfg (Op.write h)
      = some { releaseRef
            { cfg with cells := (cfg.nextId, ⟨1, cell.value⟩) :: cfg.cells,
                       nextId := cfg.nextId + 1 } (some c)
          with handles := aset cfg.handles h (some cfg.nextId) } := by
  unfold applyOp newCell
  simp [hh, hc, hcnt, releaseRef_handles]

theorem applyOp_writeT_unique {T : Type} [Inhabited T] (cfg : Config T)
    {h c : Nat} {cell : Cell T} (f g : T → T)
    (hh : alookup cfg.handles h = some (some c))
    (hc : alookup cfg.cells c = some cell) (hcnt : cell.count = 1) :
    applyOp cfg (Op.writeT h f g)
      = some { cfg with cells := aset cfg.cells c ⟨cell.count, g cell.value⟩ } := by
  unfold applyOp
  simp [hh, hc, hcnt]

theorem applyOp_writeT_shared {T : Type} [Inhabited T] (cfg : Config T)
    {h c : Nat} {cell : Cell T} (f g : T → T)
    (hh : alookup cfg.handles h = some (some c))
    (hc : alookup cfg.cells c = some cell) (hcnt : cell.count ≠ 1) :
    applyOp cfg (Op.writeT h f g)
      = some { releaseRef
            { cfg with cells := (cfg.nextId, ⟨1, f cell.value⟩) :: cfg.cells,
                       nextId := cfg.nextId + 1 } (some c)
          with handles := aset cfg.handles h (some cfg.nextId) } := by
  unfold applyOp newCell
  simp [hh, hc, hcnt, releaseRef_handles]

theorem applyOp_swap {T : Type} [Inhabited T] (cfg : Config T) {a b : Nat}
    {ra rb : Option Nat} (ha : alookup cfg.handles a = some ra)
    (hb : alookup cfg.handles b = some rb) :
    applyOp cfg (Op.swapOp a b)
      = some { cfg with handles := aset (aset cfg.handles a rb) b ra } := by
  unfold applyOp
  simp [ha, hb]

theorem refLtB_mono {r : Option Nat} {m n : Nat} (hmn : m ≤ n)
    (h : refLtB r m = true) : refLtB r n = true := by
  cases r with
  | none => rfl
  | some c =>
    have := refLtB_some h
    simp only [refLtB, decide_eq_true_eq]
    omega

theorem baseline_nextId {T : Type} {cfg : Config T} (h6 : defaultOkB cfg = true) :
    baseline cfg cfg.nextId = 0 := by
  unfold baseline
  cases hdc : cfg.defaultCell with
  | none => simp
  | some d =>
    have hlt := (defaultOkB_some h6 hdc).2
    have hne : ¬((some d : Option Nat) = some cfg.nextId) := fun he => by
      obtain rfl := Option.some.inj he
      exact absurd hlt (lt_irrefl _)
    rw [if_neg hne]

theorem wf_initConfig {T : Type} : WF (initConfig : Config T) := by
  refine ⟨by simp [initConfig], by simp [initConfig], ?_, ?_, ?_, rfl, ?_⟩ <;>
    intro p hp <;> exact absurd hp (by simp [initConfig])

theorem wf_attach {T : Type} {cfg : Config T} {c : Nat} {cell : Cell T}
    (hwf : WF cfg) (hc : alookup cfg.cells c = some cell) :
    WF { cfg with
      cells := aset cfg.cells c ⟨cell.count + 1, cell.value⟩,
      handles := (cfg.nextHandle, some c) :: cfg.handles,
      nextHandle := cfg.nextHandle + 1 } := by
  obtain ⟨h1, h2, h3, h4, h5, h6, h7⟩ := hwf
  have hck : c < cfg.nextId := h3 c (List.mem_map.2 ⟨(c, cell), alookup_mem hc, rfl⟩)
  have hkeys := aset_keys cfg.cells c (⟨cell.count + 1, cell.value⟩ : Cell T)
  refine ⟨hkeys ▸ h1, ?_, ?_, ?_, ?_, ?_, ?_⟩
  · simp only [List.map_cons, List.nodup_cons]
    exact ⟨fun hm => absurd (h4 _ hm) (lt_irrefl _), h2⟩
  · intro k hk
    exact h3 k (hkeys ▸ hk)
  · intro k hk
    show k < cfg.nextHandle + 1
    simp only [List.map_cons, List.mem_cons] at hk
    rcases hk with rfl | hk
    · omega
    · exact Nat.lt_succ_of_lt (h4 k hk)
  · intro p hp
    rcases List.mem_cons.1 hp with rfl | hp
    · simpa [refLtB] using hck
    · exact h5 p hp
  · unfold defaultOkB
    cases hdc : cfg.defaultCell with
    | none => simp
    | some d =>
      have hsome := defaultOkB_some h6 hdc
      by_cases hdd : d = c
      · subst hdd
        simp [alookup_aset_self (by rw [hc]; rfl), hsome.2]
      · simp [alookup_aset_ne _ hdd, hsome.1, hsome.2]
  · intro p hp
    have hnd' : ((aset cfg.cells c ⟨cell.count + 1, cell.value⟩).map Prod.fst).Nodup :=
      hkeys ▸ h1
    have hl := mem_alookup hnd' hp
    by_cases hpc : p.1 = c
    · rw [hpc, alookup_aset_self (by rw [hc]; rfl)] at hl
      have h2v : p.2 = ⟨cell.count + 1, cell.value⟩ := Option.some.inj hl.symm
      have hold : cell.count = refCountH cfg.handles c + baseline cfg c :=
        h7 (c, cell) (alookup_mem hc)
      show p.2.count = refCount _ p.1 + baseline _ p.1
      rw [h2v, hpc]
      show cell.count + 1
          = refCountH ((cfg.nextHandle, some c) :: cfg.handles) c + baseline cfg c
      rw [refCountH_cons, if_pos rfl]
      omega
    · rw [alookup_aset_ne _ hpc] at hl
      have hold : p.2.count = refCountH cfg.handles p.1 + baseline cfg p.1 :=
        h7 p (alookup_mem hl)
      show p.2.count
          = refCountH ((cfg.nextHandle, some c) :: cfg.handles) p.1 + baseline cfg p.1
      rw [refCountH_cons, if_neg (fun he => hpc (Option.some.inj he).symm)]
      omega

theorem wf_fresh {T : Type} {cfg : Config T} (v : T) (hwf : WF cfg) :
    WF { cfg with
      cells := (cfg.nextId, ⟨1, v⟩) :: cfg.cells,
      nextId := cfg.nextId + 1,
      handles := (cfg.nextHandle, some cfg.nextId) :: cfg.handles,
      nextHandle := cfg.nextHandle + 1 } := by
  obtain ⟨h1, h2, h3, h4, h5, h6, h7⟩ := hwf
  refine ⟨?_, ?_, ?_, ?_, ?_, ?_, ?_⟩
  · simp only [List.map_cons, List.nodup_cons]
    exact ⟨fun hm => absurd (h3 _ hm) (lt_irrefl _), h1⟩
  · simp only [List.map_cons, List.nodup_cons]
    exact ⟨fun hm => absurd (h4 _ hm) (lt_irrefl _), h2⟩
  · intro k hk
    show k < cfg.nextId + 1
    simp only [List.map_cons, List.mem_cons] at hk
    rcases hk with rfl | hk
    · omega
    · exact Nat.lt_succ_of_lt (h3 k hk)
  · intro k hk
    show k < cfg.nextHandle + 1
    simp only [List.map_cons, List.mem_cons] at hk
    rcases hk with rfl | hk
    · omega
    · exact Nat.lt_succ_of_lt (h4 k hk)
  · intro p hp
    rcases List.mem_cons.1 hp with rfl | hp
    · simp [refLtB]
    · exact refLtB_mono (Nat.le_succ _) (h5 p hp)
  · unfold defaultOkB
    cases hdc : cfg.defaultCell with
    | none => simp [hdc]
    | some d =>
      have hsome := defaultOkB_some h6 hdc
      have hdn : ¬(d = cfg.nextId) := fun he => absurd (he ▸ hsome.2) (lt_irrefl _)
      simp [hdc, alookup_cons, hdn, hsome.1, Nat.lt_succ_of_lt hsome.2]
  · intro p hp
    rcases List.mem_cons.1 hp with rfl | hp
    · show (1:Nat)
          = refCountH ((cfg.nextHandle, some cfg.nextId) :: cfg.handles) cfg.nextId
            + baseline cfg cfg.nextId
      rw [refCountH_cons, if_pos rfl, refCountH_zero h5, baseline_nextId h6]
    · have hold : p.2.count = refCountH cfg.handles p.1 + baseline cfg p.1 := h7 p hp
      have he : p.1 < cfg.nextId := h3 p.1 (List.mem_map.2 ⟨p, hp, rfl⟩)
      have hne : ¬((some cfg.nextId : Option Nat) = some p.1) := fun hh => by
        have := Option.some.inj hh
        omega
      show p.2.count
          = refCountH ((cfg.nextHandle, some cfg.nextId) :: cfg.handles) p.1
            + baseline cfg p.1
      rw [refCountH_cons, if_neg hne]
      omega

theorem wf_default_fresh {T : Type} [Inhabited T] {cfg : Config T}
    (hwf : WF cfg) (hd : cfg.defaultCell = none) :
    WF { cfg with
      cells := (cfg.nextId, ⟨2, default⟩) :: cfg.cells,
      nextId := cfg.nextId + 1,
      defaultCell := some cfg.nextId,
      handles := (cfg.nextHandle, some cfg.nextId) :: cfg.handles,
      nextHandle := cfg.nextHandle + 1 } := by
  obtain ⟨h1, h2, h3, h4, h5, h6, h7⟩ := hwf
  refine ⟨?_, ?_, ?_, ?_, ?_, ?_, ?_⟩
  · simp only [List.map_cons, List.nodup_cons]
    exact ⟨fun hm => absurd (h3 _ hm) (lt_irrefl _), h1⟩
  · simp only [List.map_cons, List.nodup_cons]
    exact ⟨fun hm => absurd (h4 _ hm) (lt_irrefl _), h2⟩
  · intro k hk
    show k < cfg.nextId + 1
    simp only [List.map_cons, List.mem_cons] at hk
    rcases hk with rfl | hk
    · omega
    · exact Nat.lt_succ_of_lt (h3 k hk)
  · intro k hk
    show k < cfg.nextHandle + 1
    simp only [List.map_cons, List.mem_cons] at hk
    rcases hk with rfl | hk
    · omega
    · exact Nat.lt_succ_of_lt (h4 k hk)
  · intro p hp
    rcases List.mem_cons.1 hp with rfl | hp
    · simp [refLtB]
    · exact refLtB_mono (Nat.le_succ _) (h5 p hp)
  · unfold defaultOkB
    simp [alookup_cons, Nat.lt_succ_self]
  · intro p hp
    rcases List.mem_cons.1 hp with rfl | hp
    · show (2:Nat)
          = refCountH ((cfg.nextHandle, some cfg.nextId) :: cfg.handles) cfg.nextId
            + (if (some cfg.nextId : Option Nat) = some cfg.nextId then 1 else 0)
      rw [refCountH_cons, if_pos rfl, refCountH_zero h5]
    · have hold : p.2.count = refCountH cfg.handles p.1 + baseline cfg p.1 := h7 p hp
      have he : p.1 < cfg.nextId := h3 p.1 (List.mem_map.2 ⟨p, hp, rfl⟩)
      have hne : ¬((some cfg.nextId : Option Nat) = some p.1) := fun hh => by
        have := Option.some.inj hh
        omega
      have hb0 : baseline cfg p.1 = 0 := by simp [baseline, hd]
      show p.2.count
          = refCountH ((cfg.nextHandle, some cfg.nextId) :: cfg.handles) p.1
            + (if (some cfg.nextId : Option Nat) = some p.1 then 1 else 0)
      rw [refCountH_cons, if_neg hne]
      omega

theorem wf_move {T : Type} {cfg : Config T} {src c : Nat}
    (hwf : WF cfg) (hs : alookup cfg.handles src = some (some c)) :
    WF { cfg with
      handles := (cfg.nextHandle, some c) :: aset cfg.handles src none,
      nextHandle := cfg.nextHandle + 1 } := by
  obtain ⟨h1, h2, h3, h4, h5, h6, h7⟩ := hwf
  have hkeys := aset_keys cfg.handles src (none : Option Nat)
  have hcref : refLtB (some c) cfg.nextId = true := h5 (src, some c) (alookup_mem hs)
  refine ⟨h1, ?_, h3, ?_, ?_, h6, ?_⟩
  · simp only [List.map_cons, List.nodup_cons, hkeys]
    exact ⟨fun hm => absurd (h4 _ hm) (lt_irrefl _), h2⟩
  · intro k hk
    show k < cfg.nextHandle + 1
    simp only [List.map_cons, List.mem_cons, hkeys] at hk
    rcases hk with rfl | hk
    · omega
    · exact Nat.lt_succ_of_lt (h4 k hk)
  · intro p hp
    rcases List.mem_cons.1 hp with rfl | hp
    · exact hcref
    · rcases aset_mem hp with rfl | hp
      · rfl
      · exact h5 p hp
  · intro p hp
    have hold : p.2.count = refCountH cfg.handles p.1 + baseline cfg p.1 := h7 p hp
    have heq := refCountH_aset hs (none : Option Nat) p.1
    have hznone : ¬((none : Option Nat) = some p.1) := by simp
    rw [if_neg hznone] at heq
    show p.2.count
        = refCountH ((cfg.nextHandle, some c) :: aset cfg.handles src none) p.1
          + baseline cfg p.1
    rw [refCountH_cons]
    by_cases hpc : c = p.1
    · have hpos : (some c : Option Nat) = some p.1 := by rw [hpc]
      rw [if_pos hpos] at heq
      rw [if_pos hpos]
      omega
    · have hne : ¬((some c : Option Nat) = some p.1) := fun he => hpc (Option.some.inj he)
      rw [if_neg hne] at heq
      rw [if_neg hne]
      omega

theorem wf_destroy {T : Type} {cfg : Config T} {h : Nat} {r : Option Nat}
    (hwf : WF cfg) (hh : alookup cfg.handles h = some r) :
    WF { releaseRef cfg r with handles := aremove cfg.handles h } := by
  obtain ⟨h1, h2, h3, h4, h5, h6, h7⟩ := hwf
  rw [releaseRef_handles_comm]
  apply release_restores
  · exact h1
  · exact aremove_nodup h2
  · exact h3
  · intro k hk
    exact h4 k (aremove_keys_mem hk)
  · intro p hp
    exact h5 p (aremove_mem hp)
  · exact h6
  · intro p hp
    have hold : p.2.count = refCountH cfg.handles p.1 + baseline cfg p.1 := h7 p hp
    have heq := refCountH_aremove hh p.1
    show p.2.count = refCountH (aremove cfg.handles h) p.1 + baseline cfg p.1
        + (if r = some p.1 then 1 else 0)
    omega

theorem wf_copyAssign {T : Type} {cfg : Config T} {dst src cs : Nat}
    {rd : Option Nat} {cell : Cell T}
    (hwf : WF cfg)
    (hd : alookup cfg.handles dst = some rd)
    (hs : alookup cfg.handles src = some (some cs))
    (hc : alookup cfg.cells cs = some cell) :
    WF (releaseRef
        { cfg with
          cells := aset cfg.cells cs ⟨cell.count + 1, cell.value⟩,
          handles := aset cfg.handles dst (some cs) } rd) := by
  obtain ⟨h1, h2, h3, h4, h5, h6, h7⟩ := hwf
  have hkeysc := aset_keys cfg.cells cs (⟨cell.count + 1, cell.value⟩ : Cell T)
  have hkeysh := aset_keys cfg.handles dst (some cs : Option Nat)
  have hcs : cs < cfg.nextId := h3 cs (List.mem_map.2 ⟨(cs, cell), alookup_mem hc, rfl⟩)
  apply release_restores
  · show ((aset cfg.cells cs (⟨cell.count + 1, cell.value⟩ : Cell T)).map Prod.fst).Nodup
    rw [hkeysc]
    exact h1
  · show ((aset cfg.handles dst (some cs : Option Nat)).map Prod.fst).Nodup
    rw [hkeysh]
    exact h2
  · intro k hk
    have hk2 : k ∈ (aset cfg.cells cs (⟨cell.count + 1, cell.value⟩ : Cell T)).map
        Prod.fst := hk
    rw [hkeysc] at hk2
    exact h3 k hk2
  · intro k hk
    have hk2 : k ∈ (aset cfg.handles dst (some cs : Option Nat)).map Prod.fst := hk
    rw [hkeysh] at hk2
    exact h4 k hk2
  · intro p hp
    rcases aset_mem hp with rfl | hp
    · simpa [refLtB] using hcs
    · exact h5 p hp
  · unfold defaultOkB
    cases hdc : cfg.defaultCell with
    | none => simp [hdc]
    | some d =>
      have hsome := defaultOkB_some h6 hdc
      by_cases hdd : d = cs
      · subst hdd
        simp [hdc, alookup_aset_self (by rw [hc]; rfl), hsome.2]
      · simp [hdc, alookup_aset_ne _ hdd, hsome.1, hsome.2]
  · intro p hp
    have hnd' : ((aset cfg.cells cs (⟨cell.count + 1, cell.value⟩ : Cell T)).map
        Prod.fst).Nodup := by
      rw [hkeysc]
      exact h1
    have hl := mem_alookup hnd' hp
    by_cases hpc : p.1 = cs
    · rw [hpc, alookup_aset_self (by rw [hc]; rfl)] at hl
      have h2v : p.2 = ⟨cell.count + 1, cell.value⟩ := Option.some.inj hl.symm
      have hold : cell.count = refCountH cfg.handles cs + baseline cfg cs :=
        h7 (cs, cell) (alookup_mem hc)
      show p.2.count = refCountH (aset cfg.handles dst (some cs)) p.1 + baseline cfg p.1
          + (if rd = some p.1 then 1 else 0)
      rw [h2v, hpc]
      show cell.count + 1 = refCountH (aset cfg.handles dst (some cs)) cs + baseline cfg cs
          + (if rd = some cs then 1 else 0)
      have heq2 := refCountH_aset hd (some cs : Option Nat) cs
      rw [if_pos rfl] at heq2
      omega
    · rw [alookup_aset_ne _ hpc] at hl
      have hold : p.2.count = refCountH cfg.handles p.1 + baseline cfg p.1 :=
        h7 p (alookup_mem hl)
      have heq := refCountH_aset hd (some cs : Option Nat) p.1
      have hne : ¬((some cs : Option Nat) = some p.1) :=
        fun he => hpc (Option.some.inj he).symm
      rw [if_neg hne] at heq
      show p.2.count = refCountH (aset cfg.handles dst (some cs)) p.1 + baseline cfg p.1
          + (if rd = some p.1 then 1 else 0)
      omega

theorem wf_moveAssign {T : Type} {cfg : Config T} {dst src cs : Nat} {rd : Option Nat}
    (hwf : WF cfg)
    (hs : alookup cfg.handles src = some (some cs))
    (hd : alookup (aset cfg.handles src none) dst = some rd) :
    WF (releaseRef
        { cfg with handles := aset (aset cfg.handles src none) dst (some cs) } rd) := by
  obtain ⟨h1, h2, h3, h4, h5, h6, h7⟩ := hwf
  have hkeys1 := aset_keys cfg.handles src (none : Option Nat)
  have hkeys2 := aset_keys (aset cfg.handles src none) dst (some cs : Option Nat)
  have hcs : cs < cfg.nextId := refLtB_some (h5 (src, some cs) (alookup_mem hs))
  apply release_restores
  · exact h1
  · show ((aset (aset cfg.handles src none) dst (some cs : Option Nat)).map
        Prod.fst).Nodup
    rw [hkeys2, hkeys1]
    exact h2
  · exact h3
  · intro k hk
    have hk2 : k ∈ (aset (aset cfg.handles src none) dst (some cs : Option Nat)).map
        Prod.fst := hk
    rw [hkeys2, hkeys1] at hk2
    exact h4 k hk2
  · intro p hp
    rcases aset_mem hp with rfl | hp
    · simpa [refLtB] using hcs
    · rcases aset_mem hp with rfl | hp
      · rfl
      · exact h5 p hp
  · exact h6
  · intro p hp
    have hold : p.2.count = refCountH cfg.handles p.1 + baseline cfg p.1 := h7 p hp
    have heq1 := refCountH_aset hs (none : Option Nat) p.1
    have hznone : ¬((none : Option Nat) = some p.1) := by simp
    rw [if_neg hznone] at heq1
    have heq2 := refCountH_aset hd (some cs : Option Nat) p.1
    show p.2.count = refCountH (aset (aset cfg.handles src none) dst (some cs)) p.1
        + baseline cfg p.1 + (if rd = some p.1 then 1 else 0)
    omega

theorem wf_replace {T : Type} {cfg : Config T} {h c : Nat} (v : T)
    (hwf : WF cfg) (hh : alookup cfg.handles h = some (some c)) :
    WF { releaseRef
          { cfg with cells := (cfg.nextId, ⟨1, v⟩) :: cfg.cells,
                     nextId := cfg.nextId + 1 } (some c)
        with handles := aset cfg.handles h (some cfg.nextId) } := by
  obtain ⟨h1, h2, h3, h4, h5, h6, h7⟩ := hwf
  have hcN : c < cfg.nextId := refLtB_some (h5 (h, some c) (alookup_mem hh))
  have hcne : ¬((some c : Option Nat) = some cfg.nextId) := fun he => by
    have := Option.some.inj he
    omega
  rw [releaseRef_handles_comm]
  apply release_restores
  · show (((cfg.nextId, (⟨1, v⟩ : Cell T)) :: cfg.cells).map Prod.fst).Nodup
    simp only [List.map_cons, List.nodup_cons]
    exact ⟨fun hm => absurd (h3 _ hm) (lt_irrefl _), h1⟩
  · show ((aset cfg.handles h (some cfg.nextId : Option Nat)).map Prod.fst).Nodup
    rw [aset_keys]
    exact h2
  · intro k hk
    show k < cfg.nextId + 1
    have hk2 : k ∈ ((cfg.nextId, (⟨1, v⟩ : Cell T)) :: cfg.cells).map Prod.fst := hk
    simp only [List.map_cons, List.mem_cons] at hk2
    rcases hk2 with rfl | hk2
    · omega
    · exact Nat.lt_succ_of_lt (h3 k hk2)
  · intro k hk
    have hk2 : k ∈ (aset cfg.handles h (some cfg.nextId : Option Nat)).map Prod.fst := hk
    rw [aset_keys] at hk2
    exact h4 k hk2
  · intro p hp
    rcases aset_mem hp with rfl | hp
    · simp [refLtB]
    · exact refLtB_mono (Nat.le_succ _) (h5 p hp)
  · unfold defaultOkB
    cases hdc : cfg.defaultCell with
    | none => simp [hdc]
    | some d =>
      have hsome := defaultOkB_some h6 hdc
      have hdn : ¬(d = cfg.nextId) := fun he => absurd (he ▸ hsome.2) (lt_irrefl _)
      simp [hdc, alookup_cons, hdn, hsome.1, Nat.lt_succ_of_lt hsome.2]
  · intro p hp
    rcases List.mem_cons.1 hp with rfl | hp
    · show (1:Nat) = refCountH (aset cfg.handles h (some cfg.nextId)) cfg.nextId
          + baseline cfg cfg.nextId + (if some c = some cfg.nextId then 1 else 0)
      have heqN := refCountH_aset hh (some cfg.nextId : Option Nat) cfg.nextId
      rw [if_pos rfl] at heqN
      rw [if_neg hcne] at heqN ⊢
      rw [baseline_nextId h6]
      have hz := refCountH_zero h5
      omega
    · have hpn : p.1 < cfg.nextId := h3 p.1 (List.mem_map.2 ⟨p, hp, rfl⟩)
      have hNne : ¬((some cfg.nextId : Option Nat) = some p.1) := fun he => by
        have := Option.some.inj he
        omega
      have heq := refCountH_aset hh (some cfg.nextId : Option Nat) p.1
      rw [if_neg hNne] at heq
      have hold : p.2.count = refCountH cfg.handles p.1 + baseline cfg p.1 := h7 p hp
      show p.2.count = refCountH (aset cfg.handles h (some cfg.nextId)) p.1
          + baseline cfg p.1 + (if some c = some p.1 then 1 else 0)
      omega

theorem wf_inplace {T : Type} {cfg : Config T} {c : Nat} {cell : Cell T} (w : T)
    (hwf : WF cfg) (hc : alookup cfg.cells c = some cell) :
    WF { cfg with cells := aset cfg.cells c ⟨cell.count, w⟩ } := by
  obtain ⟨h1, h2, h3, h4, h5, h6, h7⟩ := hwf
  have hkeys := aset_keys cfg.cells c (⟨cell.count, w⟩ : Cell T)
  refine ⟨?_, h2, ?_, h4, h5, ?_, ?_⟩
  · show ((aset cfg.cells c (⟨cell.count, w⟩ : Cell T)).map Prod.fst).Nodup
    rw [hkeys]
    exact h1
  · intro k hk
    have hk2 : k ∈ (aset cfg.cells c (⟨cell.count, w⟩ : Cell T)).map Prod.fst := hk
    rw [hkeys] at hk2
    exact h3 k hk2
  · unfold defaultOkB
    cases hdc : cfg.defaultCell with
    | none => simp [hdc]
    | some d =>
      have hsome := defaultOkB_some h6 hdc
      by_cases hdd : d = c
      · subst hdd
        simp [hdc, alookup_aset_self (by rw [hc]; rfl), hsome.2]
      · simp [hdc, alookup_aset_ne _ hdd, hsome.1, hsome.2]
  · intro p hp
    have hnd' : ((aset cfg.cells c (⟨cell.count, w⟩ : Cell T)).map Prod.fst).Nodup := by
      rw [hkeys]
      exact h1
    have hl := mem_alookup hnd' hp
    by_cases hpc : p.1 = c
    · rw [hpc, alookup_aset_self (by rw [hc]; rfl)] at hl
      have h2v : p.2 = ⟨cell.count, w⟩ := Option.some.inj hl.symm
      have hold : cell.count = refCountH cfg.handles c + baseline cfg c :=
        h7 (c, cell) (alookup_mem hc)
      show p.2.count = refCount _ p.1 + baseline _ p.1
      rw [h2v, hpc]
      exact hold
    · rw [alookup_aset_ne _ hpc] at hl
      exact h7 p (alookup_mem hl)

theorem wf_assign_null {T : Type} {cfg : Config T} {h : Nat} (v : T)
    (hwf : WF cfg) (hh : alookup cfg.handles h = some none) :
    WF { cfg with
      cells := (cfg.nextId, ⟨1, v⟩) :: cfg.cells,
      nextId := cfg.nextId + 1,
      handles := aset cfg.handles h (some cfg.nextId) } := by
  obtain ⟨h1, h2, h3, h4, h5, h6, h7⟩ := hwf
  refine ⟨?_, ?_, ?_, ?_, ?_, ?_, ?_⟩
  · show (((cfg.nextId, (⟨1, v⟩ : Cell T)) :: cfg.cells).map Prod.fst).Nodup
    simp only [List.map_cons, List.nodup_cons]
    exact ⟨fun hm => absurd (h3 _ hm) (lt_irrefl _), h1⟩
  · show ((aset cfg.handles h (some cfg.nextId : Option Nat)).map Prod.fst).Nodup
    rw [aset_keys]
    exact h2
  · intro k hk
    show k < cfg.nextId + 1
    have hk2 : k ∈ ((cfg.nextId, (⟨1, v⟩ : Cell T)) :: cfg.cells).map Prod.fst := hk
    simp only [List.map_cons, List.mem_cons] at hk2
    rcases hk2 with rfl | hk2
    · omega
    · exact Nat.lt_succ_of_lt (h3 k hk2)
  · intro k hk
    have hk2 : k ∈ (aset cfg.handles h (some cfg.nextId : Option Nat)).map Prod.fst := hk
    rw [aset_keys] at hk2
    exact h4 k hk2
  · intro p hp
    rcases aset_mem hp with rfl | hp
    · simp [refLtB]
    · exact refLtB_mono (Nat.le_succ _) (h5 p hp)
  · unfold defaultOkB
    cases hdc : cfg.defaultCell with
    | none => simp [hdc]
    | some d =>
      have hsome := defaultOkB_some h6 hdc
      have hdn : ¬(d = cfg.nextId) := fun he => absurd (he ▸ hsome.2) (lt_irrefl _)
      simp [hdc, alookup_cons, hdn, hsome.1, Nat.lt_succ_of_lt hsome.2]
  · intro p hp
    have hznone : ∀ e : Nat, ¬((none : Option Nat) = some e) := by simp
    rcases List.mem_cons.1 hp with rfl | hp
    · show (1:Nat) = refCountH (aset cfg.handles h (some cfg.nextId)) cfg.nextId
          + baseline cfg cfg.nextId
      have heqN := refCountH_aset hh (some cfg.nextId : Option Nat) cfg.nextId
      rw [if_pos rfl] at heqN
      rw [if_neg (hznone cfg.nextId)] at heqN
      rw [baseline_nextId h6]
      have hz := refCountH_zero h5
      omega
    · have hpn : p.1 < cfg.nextId := h3 p.1 (List.mem_map.2 ⟨p, hp, rfl⟩)
      have hNne : ¬((some cfg.nextId : Option Nat) = some p.1) := fun he => by
        have := Option.some.inj he
        omega
      have heq := refCountH_aset hh (some cfg.nextId : Option Nat) p.1
      rw [if_neg (hznone p.1), if_neg hNne] at heq
      have hold : p.2.count = refCountH cfg.handles p.1 + baseline cfg p.1 := h7 p hp
      show p.2.count = refCountH (aset cfg.handles h (some cfg.nextId)) p.1
          + baseline cfg p.1
      omega

theorem wf_swap {T : Type} {cfg : Config T} {a b : Nat} {ra rb : Option Nat}
    (hwf : WF cfg) (ha : alookup cfg.handles a = some ra)
    (hb : alookup cfg.handles b = some rb) :
    WF { cfg with handles := aset (aset cfg.handles a rb) b ra } := by
  obtain ⟨h1, h2, h3, h4, h5, h6, h7⟩ := hwf
  have hb2 : alookup (aset cfg.handles a rb) b = some rb := by
    by_cases hab : b = a
    · subst hab
      exact alookup_aset_self (by rw [ha]; rfl) rb
    · rw [alookup_aset_ne _ hab]
      exact hb
  refine ⟨h1, ?_, h3, ?_, ?_, h6, ?_⟩
  · show ((aset (aset cfg.handles a rb) b ra).map Prod.fst).Nodup
    rw [aset_keys, aset_keys]
    exact h2
  · intro k hk
    have hk2 : k ∈ (aset (aset cfg.handles a rb) b ra).map Prod.fst := hk
    rw [aset_keys, aset_keys] at hk2
    exact h4 k hk2
  · intro p hp
    rcases aset_mem hp with rfl | hp
    · exact h5 (a, ra) (alookup_mem ha)
    · rcases aset_mem hp with rfl | hp
      · exact h5 (b, rb) (alookup_mem hb)
      · exact h5 p hp
  · intro p hp
    have hold : p.2.count = refCountH cfg.handles p.1 + baseline cfg p.1 := h7 p hp
    have heq1 := refCountH_aset ha rb p.1
    have heq2 := refCountH_aset hb2 ra p.1
    show p.2.count = refCountH (aset (aset cfg.handles a rb) b ra) p.1 + baseline cfg p.1
    omega

theorem wf_step {T : Type} [Inhabited T] {cfg cfg' : Config T} {op : Op T}
    (hwf : WF cfg) (hstep : applyOp cfg op = some cfg') : WF cfg' := by
  cases op with
  | defaultCtor =>
    cases hdc : cfg.defaultCell with
    | none =>
      rw [applyOp_defaultCtor_fresh cfg hdc] at hstep
      obtain rfl := Option.some.inj hstep
      exact wf_default_fresh hwf hdc
    | some d =>
      cases hc : alookup cfg.cells d with
      | none =>
        exfalso
        unfold applyOp default_model at hstep
        simp [hdc, hc] at hstep
      | some cell =>
        rw [applyOp_defaultCtor_existing cfg hdc hc] at hstep
        obtain rfl := Option.some.inj hstep
        exact wf_attach hwf hc
  | valueCtor v =>
    rw [applyOp_valueCtor cfg v] at hstep
    obtain rfl := Option.some.inj hstep
    exact wf_fresh v hwf
  | copyCtor src =>
    cases hs : alookup cfg.handles src with
    | none =>
      exfalso
      unfold applyOp at hstep
      simp [hs] at hstep
    | some r =>
      cases r with
      | none =>
        exfalso
        unfold applyOp at hstep
        simp [hs] at hstep
      | some c =>
        cases hc : alookup cfg.cells c with
        | none =>
          exfalso
          unfold applyOp at hstep
          simp [hs, hc] at hstep
        | some cell =>
          rw [applyOp_copyCtor cfg hs hc] at hstep
          obtain rfl := Option.some.inj hstep
          exact wf_attach hwf hc
  | moveCtor src =>
    cases hs : alookup cfg.handles src with
    | none =>
      exfalso
      unfold applyOp at hstep
      simp [hs] at hstep
    | some r =>
      cases r with
      | none =>
        exfalso
        unfold applyOp at hstep
        simp [hs] at hstep
      | some c =>
        rw [applyOp_moveCtor cfg hs] at hstep
        obtain rfl := Option.some.inj hstep
        exact wf_move hwf hs
  | destroy h =>
    cases hh : alookup cfg.handles h with
    | none =>
      exfalso
      unfold applyOp at hstep
      simp [hh] at hstep
    | some r =>
      rw [applyOp_destroy cfg hh] at hstep
      obtain rfl := Option.some.inj hstep
      exact wf_destroy hwf hh
  | copyAssign dst src =>
    by_cases hne : dst = src
    · exfalso
      unfold applyOp at hstep
      simp [hne] at hstep
    · cases hd : alookup cfg.handles dst with
      | none =>
        exfalso
        unfold applyOp at hstep
        simp [hne, hd] at hstep
      | some rd =>
        cases hs : alookup cfg.handles src with
        | none =>
          exfalso
          unfold applyOp at hstep
          simp [hne, hd, hs] at hstep
        | some rs =>
          cases rs with
          | none =>
            exfalso
            unfold applyOp at hstep
            simp [hne, hd, hs] at hstep
          | some cs =>
            cases hc : alookup cfg.cells cs with
            | none =>
              exfalso
              unfold applyOp at hstep
              simp [hne, hd, hs, hc] at hstep
            | some cell =>
              rw [applyOp_copyAssign cfg hne hd hs hc] at hstep
              obtain rfl := Option.some.inj hstep
              exact wf_copyAssign hwf hd hs hc
  | moveAssign dst src =>
    cases hs : alookup cfg.handles src with
    | none =>
      exfalso
      unfold applyOp at hstep
      simp [hs] at hstep
    | some rs =>
      cases rs with
      | none =>
        exfalso
        unfold applyOp at hstep
        simp [hs] at hstep
      | some cs =>
        cases hd : alookup (aset cfg.handles src none) dst with
        | none =>
          exfalso
          unfold applyOp at hstep
          simp [hs, hd] at hstep
        | some rd =>
          rw [applyOp_moveAssign cfg hs hd] at hstep
          obtain rfl := Option.some.inj hstep
          exact wf_moveAssign hwf hs hd
  | valueAssign h v =>
    cases hh : alookup cfg.handles h with
    | none =>
      exfalso
      unfold applyOp at hstep
      simp [hh] at hstep
    | some r =>
      cases r with
      | none =>
        rw [applyOp_valueAssign_null cfg v hh] at hstep
        obtain rfl := Option.some.inj hstep
        exact wf_assign_null v hwf hh
      | some c =>
        cases hc : alookup cfg.cells c with
        | none =>
          exfalso
          unfold applyOp at hstep
          simp [hh, hc] at hstep
        | some cell =>
          by_cases hcnt : cell.count = 1
          · rw [applyOp_valueAssign_inplace cfg v hh hc hcnt] at hstep
            obtain rfl := Option.some.inj hstep
            exact wf_inplace v hwf hc
          · rw [applyOp_valueAssign_shared cfg v hh hc hcnt] at hstep
            obtain rfl := Option.some.inj hstep
            exact wf_replace v hwf hh
  | write h =>
    cases hh : alookup cfg.handles h with
    | none =>
      exfalso
      unfold applyOp at hstep
      simp [hh] at hstep
    | some r =>
      cases r with
      | none =>
        exfalso
        unfold applyOp at hstep
        simp [hh] at hstep
      | some c =>
        cases hc : alookup cfg.cells c with
        | none =>
          exfalso
          unfold applyOp at hstep
          simp [hh, hc] at hstep
        | some cell =>
          by_cases hcnt : cell.count = 1
          · rw [applyOp_write_unique cfg hh hc hcnt] at hstep
            obtain rfl := Option.some.inj hstep
            exact hwf
          · rw [applyOp_write_shared cfg hh hc hcnt] at hstep
            obtain rfl := Option.some.inj hstep
            exact wf_replace cell.value hwf hh
  | writeT h f g =>
    cases hh : alookup cfg.handles h with
    | none =>
      exfalso
      unfold applyOp at hstep
      simp [hh] at hstep
    | some r =>
      cases r with
      | none =>
        exfalso
        unfold applyOp at hstep
        simp [hh] at hstep
      | some c =>
        cases hc : alookup cfg.cells c with
        | none =>
          exfalso
          unfold applyOp at hstep
          simp [hh, hc] at hstep
        | some cell =>
          by_cases hcnt : cell.count = 1
          · rw [applyOp_writeT_unique cfg f g hh hc hcnt] at hstep
            obtain rfl := Option.some.inj hstep
            exact wf_inplace (g cell.value) hwf hc
          · rw [applyOp_writeT_shared cfg f g hh hc hcnt] at hstep
            obtain rfl := Option.some.inj hstep
            exact wf_replace (f cell.value) hwf hh
  | swapOp a b =>
    cases hA : alookup cfg.handles a with
    | none =>
      exfalso
      unfold applyOp at hstep
      simp [hA] at hstep
    | some ra =>
      cases hB : alookup cfg.handles b with
      | none =>
        exfalso
        unfold applyOp at hstep
        simp [hA, hB] at hstep
      | some rb =>
        rw [applyOp_swap cfg hA hB] at hstep
        obtain rfl := Option.some.inj hstep
        exact wf_swap hwf hA hB

theorem wf_reachable {T : Type} [Inhabited T] {cfg : Config T}
    (hr : Reachable cfg) : WF cfg := by
  induction hr with
  | init => exact wf_initConfig
  | step op hr hstep ih => exact wf_step ih hstep

theorem release_cells_facts {T : Type} (cfgN B : Config T) (rd : Option Nat)
    (hsome : ∀ e cell, alookup cfgN.cells e = some cell →
       ∃ cellB, alookup B.cells e = some cellB ∧ (cellB.count = 1 → cell.count = 1))
    (hnone : ∀ e, e < cfgN.nextId → alookup cfgN.cells e = none →
       alookup B.cells e = none)
    (hnodB : (B.cells.map Prod.fst).Nodup)
    (hdef : ∀ cd cellB, rd = some cd → alookup B.cells cd = some cellB →
       cellB.count = 1 → cfgN.defaultCell ≠ some cd)
    (hdefsome : ∀ d, cfgN.defaultCell = some d → (alookup B.cells d).isSome = true) :
    (∀ c cell, alookup cfgN.cells c = some cell →
        alookup (releaseRef B rd).cells c = none → cell.count = 1) ∧
    (∀ c, c < cfgN.nextId → alookup cfgN.cells c = none →
        alookup (releaseRef B rd).cells c = none) ∧
    (∀ d, cfgN.defaultCell = some d →
        (alookup (releaseRef B rd).cells d).isSome = true) := by
  cases rd with
  | none =>
    refine ⟨?_, ?_, ?_⟩
    · intro c cell hcl hn
      obtain ⟨cellB, hB, _⟩ := hsome c cell hcl
      have hn2 : alookup B.cells c = none := hn
      rw [hB] at hn2
      exact absurd hn2 (by simp)
    · intro c hlt hcl
      show alookup B.cells c = none
      exact hnone c hlt hcl
    · intro d hd
      show (alookup B.cells d).isSome = true
      exact hdefsome d hd
  | some cd =>
    cases hcd : alookup B.cells cd with
    | none =>
      rw [releaseRef_missing B hcd]
      refine ⟨?_, ?_, ?_⟩
      · intro c cell hcl hn
        obtain ⟨cellB, hB, _⟩ := hsome c cell hcl
        rw [hB] at hn
        exact absurd hn (by simp)
      · exact hnone
      · exact hdefsome
    | some cellB =>
      by_cases hone : cellB.count = 1
      · rw [releaseRef_last B hcd hone]
        have hdne : cfgN.defaultCell ≠ some cd := hdef cd cellB rfl hcd hone
        refine ⟨?_, ?_, ?_⟩
        · intro c cell hcl hn
          obtain ⟨cellB2, hB2, himp⟩ := hsome c cell hcl
          by_cases hccd : c = cd
          · subst hccd
            rw [hB2] at hcd
            obtain rfl := Option.some.inj hcd
            exact himp hone
          · have hn2 : alookup (aremove B.cells cd) c = none := hn
            rw [alookup_aremove_ne hccd, hB2] at hn2
            exact absurd hn2 (by simp)
        · intro c hlt hcl
          show alookup (aremove B.cells cd) c = none
          by_cases hccd : c = cd
          · subst hccd
            exact alookup_aremove_self hnodB
          · rw [alookup_aremove_ne hccd]
            exact hnone c hlt hcl
        · intro d hd
          have hddcd : d ≠ cd := fun he => hdne (he ▸ hd)
          show (alookup (aremove B.cells cd) d).isSome = true
          rw [alookup_aremove_ne hddcd]
          exact hdefsome d hd
      · rw [releaseRef_dec B hcd hone]
        refine ⟨?_, ?_, ?_⟩
        · intro c cell hcl hn
          obtain ⟨cellB2, hB2, himp⟩ := hsome c cell hcl
          have hn2 : alookup (aset B.cells cd ⟨cellB.count - 1, cellB.value⟩) c
              = none := hn
          by_cases hccd : c = cd
          · subst hccd
            rw [alookup_aset_self (by rw [hcd]; rfl)] at hn2
            exact absurd hn2 (by simp)
          · rw [alookup_aset_ne _ hccd, hB2] at hn2
            exact absurd hn2 (by simp)
        · intro c hlt hcl
          show alookup (aset B.cells cd ⟨cellB.count - 1, cellB.value⟩) c = none
          by_cases hccd : c = cd
          · subst hccd
            rw [hnone c hlt hcl] at hcd
            exact absurd hcd (by simp)
          · rw [alookup_aset_ne _ hccd]
            exact hnone c hlt hcl
        · intro d hd
          show (alookup (aset B.cells cd ⟨cellB.count - 1, cellB.value⟩) d).isSome = true
          by_cases hddcd : d = cd
          · subst hddcd
            rw [alookup_aset_self (by rw [hcd]; rfl)]
            rfl
          · rw [alookup_aset_ne _ hddcd]
            exact hdefsome d hd

theorem releaseRef_defaultCell {T : Type} (cfg : Config T) (r : Option Nat) :
    (releaseRef cfg r).defaultCell = cfg.defaultCell := by
  cases r with
  | none => rfl
  | some c =>
    cases hc : alookup cfg.cells c with
    | none => rw [releaseRef_missing cfg hc]
    | some cell =>
      by_cases h1 : cell.count = 1
      · rw [releaseRef_last cfg hc h1]
      · rw [releaseRef_dec cfg hc h1]

theorem facts_cells_id {T : Type} {cfgN : Config T} (X : List (Nat × Cell T))
    (hcells : X = cfgN.cells) (h6 : defaultOkB cfgN = true) :
    (∀ c cell, alookup cfgN.cells c = some cell → alookup X c = none →
        cell.count = 1) ∧
    (∀ c, c < cfgN.nextId → alookup cfgN.cells c = none → alookup X c = none) ∧
    (∀ d, cfgN.defaultCell = some d → (alookup X d).isSome = true) := by
  subst hcells
  refine ⟨?_, ?_, ?_⟩
  · intro c cell hcl hn
    rw [hcl] at hn
    exact absurd hn (by simp)
  · intro c _ hcl
    exact hcl
  · intro d hd
    exact (defaultOkB_some h6 hd).1

theorem facts_cells_cons {T : Type} {cfgN : Config T} (X : List (Nat × Cell T))
    (x : Cell T) (hcells : X = (cfgN.nextId, x) :: cfgN.cells)
    (h6 : defaultOkB cfgN = true) :
    (∀ c cell, alookup cfgN.cells c = some cell → alookup X c = none →
        cell.count = 1) ∧
    (∀ c, c < cfgN.nextId → alookup cfgN.cells c = none → alookup X c = none) ∧
    (∀ d, cfgN.defaultCell = some d → (alookup X d).isSome = true) := by
  subst hcells
  refine ⟨?_, ?_, ?_⟩
  · intro c cell hcl hn
    rw [alookup_cons] at hn
    by_cases hcn : c = cfgN.nextId
    · rw [if_pos hcn] at hn
      exact absurd hn (by simp)
    · rw [if_neg hcn, hcl] at hn
      exact absurd hn (by simp)
  · intro c hlt hcl
    have hcn : ¬(c = cfgN.nextId) := by omega
    rw [alookup_cons, if_neg hcn]
    exact hcl
  · intro d hd
    have hsome := defaultOkB_some h6 hd
    have hdn : ¬(d = cfgN.nextId) := by
      have := hsome.2
      omega
    rw [alookup_cons, if_neg hdn]
    exact hsome.1

theorem facts_cells_aset {T : Type} {cfgN : Config T} (X : List (Nat × Cell T))
    {k : Nat} (x : Cell T) (hk : (alookup cfgN.cells k).isSome = true)
    (hcells : X = aset cfgN.cells k x) (h6 : defaultOkB cfgN = true) :
    (∀ c cell, alookup cfgN.cells c = some cell → alookup X c = none →
        cell.count = 1) ∧
    (∀ c, c < cfgN.nextId → alookup cfgN.cells c = none → alookup X c = none) ∧
    (∀ d, cfgN.defaultCell = some d → (alookup X d).isSome = true) := by
  subst hcells
  refine ⟨?_, ?_, ?_⟩
  · intro c cell hcl hn
    by_cases hck : c = k
    · subst hck
      rw [alookup_aset_self hk] at hn
      exact absurd hn (by simp)
    · rw [alookup_aset_ne _ hck, hcl] at hn
      exact absurd hn (by simp)
  · intro c hlt hcl
    by_cases hck : c = k
    · subst hck
      rw [hcl] at hk
      exact absurd hk (by simp)
    · rw [alookup_aset_ne _ hck]
      exact hcl
  · intro d hd
    have hsome := defaultOkB_some h6 hd
    by_cases hdk : d = k
    · subst hdk
      rw [alookup_aset_self hk]
      rfl
    · rw [alookup_aset_ne _ hdk]
      exact hsome.1

theorem step_facts {T : Type} [Inhabited T] {cfg cfg' : Config T} {op : Op T}
    (hwf : WF cfg) (hstep : applyOp cfg op = some cfg') :
    (∀ c cell, alookup cfg.cells c = some cell → alookup cfg'.cells c = none →
        cell.count = 1) ∧
    (∀ c, c < cfg.nextId → alookup cfg.cells c = none → alookup cfg'.cells c = none) ∧
    (∀ d, cfg.defaultCell = some d → cfg'.defaultCell = some d) ∧
    (∀ d, cfg.defaultCell = some d → (alookup cfg'.cells d).isSome = true) := by
  cases op with
  | defaultCtor =>
    cases hdc : cfg.defaultCell with
    | none =>
      rw [applyOp_defaultCtor_fresh cfg hdc] at hstep
      obtain rfl := Option.some.inj hstep
      obtain ⟨h1, h2, h3, h4, h5, h6, h7⟩ := hwf
      have hf := facts_cells_cons ((cfg.nextId, (⟨2, default⟩ : Cell T)) :: cfg.cells)
        ⟨2, default⟩ rfl h6
      refine ⟨hf.1, hf.2.1, ?_, ?_⟩ <;>
        exact fun d hdd => absurd hdd (by simp)
    | some d0 =>
      cases hc : alookup cfg.cells d0 with
      | none =>
        exfalso
        unfold applyOp default_model at hstep
        simp [hdc, hc] at hstep
      | some cell =>
        rw [applyOp_defaultCtor_existing cfg hdc hc] at hstep
        obtain rfl := Option.some.inj hstep
        obtain ⟨h1, h2, h3, h4, h5, h6, h7⟩ := hwf
        have hf := facts_cells_aset
          (aset cfg.cells d0 ⟨cell.count + 1, cell.value⟩)
          (⟨cell.count + 1, cell.value⟩ : Cell T) (by rw [hc]; rfl) rfl h6
        exact ⟨hf.1, hf.2.1,
          fun d hdd => show cfg.defaultCell = some d from hdc.trans hdd,
          fun d hdd => hf.2.2 d (hdc.trans hdd)⟩
  | valueCtor v =>
    rw [applyOp_valueCtor cfg v] at hstep
    obtain rfl := Option.some.inj hstep
    obtain ⟨h1, h2, h3, h4, h5, h6, h7⟩ := hwf
    have hf := facts_cells_cons ((cfg.nextId, (⟨1, v⟩ : Cell T)) :: cfg.cells)
      ⟨1, v⟩ rfl h6
    exact ⟨hf.1, hf.2.1, fun d hdd => hdd, hf.2.2⟩
  | copyCtor src =>
    cases hs : alookup cfg.handles src with
    | none =>
      exfalso
      unfold applyOp at hstep
      simp [hs] at hstep
    | some r =>
      cases r with
      | none =>
        exfalso
        unfold applyOp at hstep
        simp [hs] at hstep
      | some c =>
        cases hc : alookup cfg.cells c with
        | none =>
          exfalso
          unfold applyOp at hstep
          simp [hs, hc] at hstep
        | some cell =>
          rw [applyOp_copyCtor cfg hs hc] at hstep
          obtain rfl := Option.some.inj hstep
          obtain ⟨h1, h2, h3, h4, h5, h6, h7⟩ := hwf
          have hf := facts_cells_aset
            (aset cfg.cells c ⟨cell.count + 1, cell.value⟩)
            (⟨cell.count + 1, cell.value⟩ : Cell T) (by rw [hc]; rfl) rfl h6
          exact ⟨hf.1, hf.2.1, fun d hdd => hdd, hf.2.2⟩
  | moveCtor src =>
    cases hs : alookup cfg.handles src with
    | none =>
      exfalso
      unfold applyOp at hstep
      simp [hs] at hstep
    | some r =>
      cases r with
      | none =>
        exfalso
        unfold applyOp at hstep
        simp [hs] at hstep
      | some c =>
        rw [applyOp_moveCtor cfg hs] at hstep
        obtain rfl := Option.some.inj hstep
        obtain ⟨h1, h2, h3, h4, h5, h6, h7⟩ := hwf
        have hf := facts_cells_id cfg.cells rfl h6
        exact ⟨hf.1, hf.2.1, fun d hdd => hdd, hf.2.2⟩
  | destroy h =>
    cases hh : alookup cfg.handles h with
    | none =>
      exfalso
      unfold applyOp at hstep
      simp [hh] at hstep
    | some r =>
      rw [applyOp_destroy cfg hh] at hstep
      obtain rfl := Option.some.inj hstep
      obtain ⟨h1, h2, h3, h4, h5, h6, h7⟩ := hwf
      have hr := release_cells_facts cfg cfg r
        (fun e cell hl => ⟨cell, hl, fun hx => hx⟩)
        (fun e _ hl => hl)
        h1
        (by
          intro cd cellB hrd hcdl hone he
          rw [hrd] at hh
          have hpos := refCountH_pos hh
          have hcnt : cellB.count = refCountH cfg.handles cd + baseline cfg cd :=
            h7 (cd, cellB) (alookup_mem hcdl)
          have hb1 : baseline cfg cd = 1 := by simp [baseline, he]
          omega)
        (fun d hdd => (defaultOkB_some h6 hdd).1)
      refine ⟨hr.1, hr.2.1, ?_, hr.2.2⟩
      intro d hdd
      show (releaseRef cfg r).defaultCell = some d
      rw [releaseRef_defaultCell]
      exact hdd
  | copyAssign dst src =>
    by_cases hne : dst = src
    · exfalso
      unfold applyOp at hstep
      simp [hne] at hstep
    · cases hd : alookup cfg.handles dst with
      | none =>
        exfalso
        unfold applyOp at hstep
        simp [hne, hd] at hstep
      | some rd =>
        cases hs : alookup cfg.handles src with
        | none =>
          exfalso
          unfold applyOp at hstep
          simp [hne, hd, hs] at hstep
        | some rs =>
          cases rs with
          | none =>
            exfalso
            unfold applyOp at hstep
            simp [hne, hd, hs] at hstep
          | some cs =>
            cases hc : alookup cfg.cells cs with
            | none =>
              exfalso
              unfold applyOp at hstep
              simp [hne, hd, hs, hc] at hstep
            | some cell =>
              rw [applyOp_copyAssign cfg hne hd hs hc] at hstep
              obtain rfl := Option.some.inj hstep
              obtain ⟨h1, h2, h3, h4, h5, h6, h7⟩ := hwf
              have hcnt1 : 1 ≤ cell.count := by
                have hcnt : cell.count = refCountH cfg.handles cs + baseline cfg cs :=
                  h7 (cs, cell) (alookup_mem hc)
                have := refCountH_pos hs
                omega
              have hr := release_cells_facts cfg
                { cfg with cells := aset cfg.cells cs ⟨cell.count + 1, cell.value⟩,
                           handles := aset cfg.handles dst (some cs) } rd
                (by
                  intro e cell2 hl
                  by_cases hecs : e = cs
                  · subst hecs
                    have hl2 := hl
                    rw [hc] at hl2
                    obtain rfl := Option.some.inj hl2.symm
                    refine ⟨⟨cell2.count + 1, cell2.value⟩, ?_, ?_⟩
                    · show alookup (aset cfg.cells e ⟨cell2.count + 1, cell2.value⟩) e
                          = some ⟨cell2.count + 1, cell2.value⟩
                      exact alookup_aset_self (by rw [hl]; rfl) _
                    · intro habs
                      exfalso
                      have habs2 : cell2.count + 1 = 1 := habs
                      omega
                  · refine ⟨cell2, ?_, fun hx => hx⟩
                    show alookup (aset cfg.cells cs ⟨cell.count + 1, cell.value⟩) e
                        = some cell2
                    rw [alookup_aset_ne _ hecs]
                    exact hl)
                (by
                  intro e hlt hl
                  show alookup (aset cfg.cells cs ⟨cell.count + 1, cell.value⟩) e = none
                  by_cases hecs : e = cs
                  · subst hecs
                    rw [hl] at hc
                    exact absurd hc (by simp)
                  · rw [alookup_aset_ne _ hecs]
                    exact hl)
                (by
                  show ((aset cfg.cells cs (⟨cell.count + 1, cell.value⟩ : Cell T)).map
                      Prod.fst).Nodup
                  rw [aset_keys]
                  exact h1)
                (by
                  intro cd cellB hrd hcdl hone he
                  rw [hrd] at hd
                  have hpos := refCountH_pos hd
                  by_cases hcdcs : cd = cs
                  · subst hcdcs
                    have hcdl2 : alookup (aset cfg.cells cd
                        ⟨cell.count + 1, cell.value⟩) cd = some cellB := hcdl
                    rw [alookup_aset_self (by rw [hc]; rfl)] at hcdl2
                    obtain rfl := Option.some.inj hcdl2.symm
                    have hone2 : cell.count + 1 = 1 := hone
                    omega
                  · have hcdl2 : alookup (aset cfg.cells cs
                        ⟨cell.count + 1, cell.value⟩) cd = some cellB := hcdl
                    rw [alookup_aset_ne _ hcdcs] at hcdl2
                    have hcnt : cellB.count = refCountH cfg.handles cd + baseline cfg cd :=
                      h7 (cd, cellB) (alookup_mem hcdl2)
                    have hb1 : baseline cfg cd = 1 := by simp [baseline, he]
                    omega)
                (by
                  intro d hdd
                  have hsome := defaultOkB_some h6 hdd
                  show (alookup (aset cfg.cells cs ⟨cell.count + 1, cell.value⟩)
                      d).isSome = true
                  by_cases hdcs : d = cs
                  · subst hdcs
                    rw [alookup_aset_self (by rw [hc]; rfl)]
                    rfl
                  · rw [alookup_aset_ne _ hdcs]
                    exact hsome.1)
              refine ⟨hr.1, hr.2.1, ?_, hr.2.2⟩
              intro d hdd
              show (releaseRef { cfg with
                  cells := aset cfg.cells cs ⟨cell.count + 1, cell.value⟩,
                  handles := aset cfg.handles dst (some cs) } rd).defaultCell = some d
              rw [releaseRef_defaultCell]
              exact hdd
  | moveAssign dst src =>
    cases hs : alookup cfg.handles src with
    | none =>
      exfalso
      unfold applyOp at hstep
      simp [hs] at hstep
    | some rs =>
      cases rs with
      | none =>
        exfalso
        unfold applyOp at hstep
        simp [hs] at hstep
      | some cs =>
        cases hd : alookup (aset cfg.handles src none) dst with
        | none =>
          exfalso
          unfold applyOp at hstep
          simp [hs, hd] at hstep
        | some rd =>
          rw [applyOp_moveAssign cfg hs hd] at hstep
          obtain rfl := Option.some.inj hstep
          obtain ⟨h1, h2, h3, h4, h5, h6, h7⟩ := hwf
          have hr := release_cells_facts cfg
            { cfg with handles := aset (aset cfg.handles src none) dst (some cs) } rd
            (fun e cell hl => ⟨cell, hl, fun hx => hx⟩)
            (fun e _ hl => hl)
            h1
            (by
              intro cd cellB hrd hcdl hone he
              have hdstsrc : ¬(dst = src) := by
                intro heq
                subst heq
                rw [alookup_aset_self (by rw [hs]; rfl)] at hd
                rw [hrd] at hd
                exact absurd (Option.some.inj hd) (by simp)
              rw [alookup_aset_ne _ hdstsrc] at hd
              rw [hrd] at hd
              have hpos := refCountH_pos hd
              have hcdl2 : alookup cfg.cells cd = some cellB := hcdl
              have hcnt : cellB.count = refCountH cfg.handles cd + baseline cfg cd :=
                h7 (cd, cellB) (alookup_mem hcdl2)
              have hb1 : baseline cfg cd = 1 := by simp [baseline, he]
              omega)
            (fun d hdd => (defaultOkB_some h6 hdd).1)
          refine ⟨hr.1, hr.2.1, ?_, hr.2.2⟩
          intro d hdd
          show (releaseRef { cfg with
              handles := aset (aset cfg.handles src none) dst (some cs) }
              rd).defaultCell = some d
          rw [releaseRef_defaultCell]
          exact hdd
  | valueAssign h v =>
    cases hh : alookup cfg.handles h with
    | none =>
      exfalso
      unfold applyOp at hstep
      simp [hh] at hstep
    | some r =>
      cases r with
      | none =>
        rw [applyOp_valueAssign_null cfg v hh] at hstep
        obtain rfl := Option.some.inj hstep
        obtain ⟨h1, h2, h3, h4, h5, h6, h7⟩ := hwf
        have hf := facts_cells_cons ((cfg.nextId, (⟨1, v⟩ : Cell T)) :: cfg.cells)
          ⟨1, v⟩ rfl h6
        exact ⟨hf.1, hf.2.1, fun d hdd => hdd, hf.2.2⟩
      | some c =>
        cases hc : alookup cfg.cells c with
        | none =>
          exfalso
          unfold applyOp at hstep
          simp [hh, hc] at hstep
        | some cell =>
          by_cases hcnt : cell.count = 1
          · rw [applyOp_valueAssign_inplace cfg v hh hc hcnt] at hstep
            obtain rfl := Option.some.inj hstep
            obtain ⟨h1, h2, h3, h4, h5, h6, h7⟩ := hwf
            have hf := facts_cells_aset (aset cfg.cells c ⟨cell.count, v⟩)
              (⟨cell.count, v⟩ : Cell T) (by rw [hc]; rfl) rfl h6
            exact ⟨hf.1, hf.2.1, fun d hdd => hdd, hf.2.2⟩
          · rw [applyOp_valueAssign_shared cfg v hh hc hcnt] at hstep
            obtain rfl := Option.some.inj hstep
            obtain ⟨h1, h2, h3, h4, h5, h6, h7⟩ := hwf
            have hr := release_cells_facts cfg
              { cfg with cells := (cfg.nextId, (⟨1, v⟩ : Cell T)) :: cfg.cells,
                         nextId := cfg.nextId + 1 } (some c)
              (by
                intro e cell2 hl
                have hlt : e < cfg.nextId :=
                  h3 e (List.mem_map.2 ⟨(e, cell2), alookup_mem hl, rfl⟩)
                refine ⟨cell2, ?_, fun hx => hx⟩
                show alookup ((cfg.nextId, (⟨1, v⟩ : Cell T)) :: cfg.cells) e
                    = some cell2
                rw [alookup_cons, if_neg (by omega)]
                exact hl)
              (by
                intro e hlt hl
                show alookup ((cfg.nextId, (⟨1, v⟩ : Cell T)) :: cfg.cells) e = none
                rw [alookup_cons, if_neg (by omega)]
                exact hl)
              (by
                show (((cfg.nextId, (⟨1, v⟩ : Cell T)) :: cfg.cells).map
                    Prod.fst).Nodup
                simp only [List.map_cons, List.nodup_cons]
                exact ⟨fun hm => absurd (h3 _ hm) (lt_irrefl _), h1⟩)
              (by
                intro cd cellB hrd hcdl hone he
                obtain rfl := Option.some.inj hrd
                have hcN : c < cfg.nextId :=
                  refLtB_some (h5 (h, some c) (alookup_mem hh))
                have hlB : alookup ((cfg.nextId, (⟨1, v⟩ : Cell T)) :: cfg.cells) c
                    = some cell := by
                  rw [alookup_cons, if_neg (by omega)]
                  exact hc
                have hcdl2 : alookup ((cfg.nextId, (⟨1, v⟩ : Cell T)) :: cfg.cells) c
                    = some cellB := hcdl
                rw [hlB] at hcdl2
                obtain rfl := Option.some.inj hcdl2
                exact absurd hone hcnt)
              (by
                intro d hdd
                have hsome := defaultOkB_some h6 hdd
                show (alookup ((cfg.nextId, (⟨1, v⟩ : Cell T)) :: cfg.cells)
                    d).isSome = true
                rw [alookup_cons, if_neg (by have := hsome.2; omega)]
                exact hsome.1)
            refine ⟨hr.1, hr.2.1, ?_, hr.2.2⟩
            intro d hdd
            show (releaseRef { cfg with
                cells := (cfg.nextId, (⟨1, v⟩ : Cell T)) :: cfg.cells,
                nextId := cfg.nextId + 1 } (some c)).defaultCell = some d
            rw [releaseRef_defaultCell]
            exact hdd
  | write h =>
    cases hh : alookup cfg.handles h with
    | none =>
      exfalso
      unfold applyOp at hstep
      simp [hh] at hstep
    | some r =>
      cases r with
      | none =>
        exfalso
        unfold applyOp at hstep
        simp [hh] at hstep
      | some c =>
        cases hc : alookup cfg.cells c with
        | none =>
          exfalso
          unfold applyOp at hstep
          simp [hh, hc] at hstep
        | some cell =>
          by_cases hcnt : cell.count = 1
          · rw [applyOp_write_unique cfg hh hc hcnt] at hstep
            obtain rfl := Option.some.inj hstep
            obtain ⟨h1, h2, h3, h4, h5, h6, h7⟩ := hwf
            have hf := facts_cells_id cfg.cells rfl h6
            exact ⟨hf.1, hf.2.1, fun d hdd => hdd, hf.2.2⟩
          · rw [applyOp_write_shared cfg hh hc hcnt] at hstep
            obtain rfl := Option.some.inj hstep
            obtain ⟨h1, h2, h3, h4, h5, h6, h7⟩ := hwf
            have hr := release_cells_facts cfg
              { cfg with cells := (cfg.nextId, (⟨1, cell.value⟩ : Cell T)) :: cfg.cells,
                         nextId := cfg.nextId + 1 } (some c)
              (by
                intro e cell2 hl
                have hlt : e < cfg.nextId :=
                  h3 e (List.mem_map.2 ⟨(e, cell2), alookup_mem hl, rfl⟩)
                refine ⟨cell2, ?_, fun hx => hx⟩
                show alookup ((cfg.nextId, (⟨1, cell.value⟩ : Cell T)) :: cfg.cells) e
                    = some cell2
                rw [alookup_cons, if_neg (by omega)]
                exact hl)
              (by
                intro e hlt hl
                show alookup ((cfg.nextId, (⟨1, cell.value⟩ : Cell T)) :: cfg.cells) e = none
                rw [alookup_cons, if_neg (by omega)]
                exact hl)
              (by
                show (((cfg.nextId, (⟨1, cell.value⟩ : Cell T)) :: cfg.cells).map
                    Prod.fst).Nodup
                simp only [List.map_cons, List.nodup_cons]
                exact ⟨fun hm => absurd (h3 _ hm) (lt_irrefl _), h1⟩)
              (by
                intro cd cellB hrd hcdl hone he
                obtain rfl := Option.some.inj hrd
                have hcN : c < cfg.nextId :=
                  refLtB_some (h5 (h, some c) (alookup_mem hh))
                have hlB : alookup ((cfg.nextId, (⟨1, cell.value⟩ : Cell T)) :: cfg.cells) c
                    = some cell := by
                  rw [alookup_cons, if_neg (by omega)]
                  exact hc
                have hcdl2 : alookup ((cfg.nextId, (⟨1, cell.value⟩ : Cell T)) :: cfg.cells) c
                    = some cellB := hcdl
                rw [hlB] at hcdl2
                obtain rfl := Option.some.inj hcdl2
                exact absurd hone hcnt)
              (by
                intro d hdd
                have hsome := defaultOkB_some h6 hdd
                show (alookup ((cfg.nextId, (⟨1, cell.value⟩ : Cell T)) :: cfg.cells)
                    d).isSome = true
                rw [alookup_cons, if_neg (by have := hsome.2; omega)]
                exact hsome.1)
            refine ⟨hr.1, hr.2.1, ?_, hr.2.2⟩
            intro d hdd
            show (releaseRef { cfg with
                cells := (cfg.nextId, (⟨1, cell.value⟩ : Cell T)) :: cfg.cells,
                nextId := cfg.nextId + 1 } (some c)).defaultCell = some d
            rw [releaseRef_defaultCell]
            exact hdd
  | writeT h f g =>
    cases hh : alookup cfg.handles h with
    | none =>
      exfalso
      unfold applyOp at hstep
      simp [hh] at hstep
    | some r =>
      cases r with
      | none =>
        exfalso
        unfold applyOp at hstep
        simp [hh] at hstep
      | some c =>
        cases hc : alookup cfg.cells c with
        | none =>
          exfalso
          unfold applyOp at hstep
          simp [hh, hc] at hstep
        | some cell =>
          by_cases hcnt : cell.count = 1
          · rw [applyOp_writeT_unique cfg f g hh hc hcnt] at hstep
            obtain rfl := Option.some.inj hstep
            obtain ⟨h1, h2, h3, h4, h5, h6, h7⟩ := hwf
            have hf := facts_cells_aset (aset cfg.cells c ⟨cell.count, g cell.value⟩)
              (⟨cell.count, g cell.value⟩ : Cell T) (by rw [hc]; rfl) rfl h6
            exact ⟨hf.1, hf.2.1, fun d hdd => hdd, hf.2.2⟩
          · rw [applyOp_writeT_shared cfg f g hh hc hcnt] at hstep
            obtain rfl := Option.some.inj hstep
            obtain ⟨h1, h2, h3, h4, h5, h6, h7⟩ := hwf
            have hr := release_cells_facts cfg
              { cfg with cells := (cfg.nextId, (⟨1, f cell.value⟩ : Cell T)) :: cfg.cells,
                         nextId := cfg.nextId + 1 } (some c)
              (by
                intro e cell2 hl
                have hlt : e < cfg.nextId :=
                  h3 e (List.mem_map.2 ⟨(e, cell2), alookup_mem hl, rfl⟩)
                refine ⟨cell2, ?_, fun hx => hx⟩
                show alookup ((cfg.nextId, (⟨1, f cell.value⟩ : Cell T)) :: cfg.cells) e
                    = some cell2
                rw [alookup_cons, if_neg (by omega)]
                exact hl)
              (by
                intro e hlt hl
                show alookup ((cfg.nextId, (⟨1, f cell.value⟩ : Cell T)) :: cfg.cells) e = none
                rw [alookup_cons, if_neg (by omega)]
                exact hl)
              (by
                show (((cfg.nextId, (⟨1, f cell.value⟩ : Cell T)) :: cfg.cells).map
                    Prod.fst).Nodup
                simp only [List.map_cons, List.nodup_cons]
                exact ⟨fun hm => absurd (h3 _ hm) (lt_irrefl _), h1⟩)
              (by
                intro cd cellB hrd hcdl hone he
                obtain rfl := Option.some.inj hrd
                have hcN : c < cfg.nextId :=
                  refLtB_some (h5 (h, some c) (alookup_mem hh))
                have hlB : alookup ((cfg.nextId, (⟨1, f cell.value⟩ : Cell T)) :: cfg.cells) c
                    = some cell := by
                  rw [alookup_cons, if_neg (by omega)]
                  exact hc
                have hcdl2 : alookup ((cfg.nextId, (⟨1, f cell.value⟩ : Cell T)) :: cfg.cells) c
                    = some cellB := hcdl
                rw [hlB] at hcdl2
                obtain rfl := Option.some.inj hcdl2
                exact absurd hone hcnt)
              (by
                intro d hdd
                have hsome := defaultOkB_some h6 hdd
                show (alookup ((cfg.nextId, (⟨1, f cell.value⟩ : Cell T)) :: cfg.cells)
                    d).isSome = true
                rw [alookup_cons, if_neg (by have := hsome.2; omega)]
                exact hsome.1)
            refine ⟨hr.1, hr.2.1, ?_, hr.2.2⟩
            intro d hdd
            show (releaseRef { cfg with
                cells := (cfg.nextId, (⟨1, f cell.value⟩ : Cell T)) :: cfg.cells,
                nextId := cfg.nextId + 1 } (some c)).defaultCell = some d
            rw [releaseRef_defaultCell]
            exact hdd
  | swapOp a b =>
    cases hA : alookup cfg.handles a with
    | none =>
      exfalso
      unfold applyOp at hstep
      simp [hA] at hstep
    | some ra =>
      cases hB : alookup cfg.handles b with
      | none =>
        exfalso
        unfold applyOp at hstep
        simp [hA, hB] at hstep
      | some rb =>
        rw [applyOp_swap cfg hA hB] at hstep
        obtain rfl := Option.some.inj hstep
        obtain ⟨h1, h2, h3, h4, h5, h6, h7⟩ := hwf
        have hf := facts_cells_id cfg.cells rfl h6
        exact ⟨hf.1, hf.2.1, fun d hdd => hdd, hf.2.2⟩

instance WF_dec {T : Type} (cfg : Config T) : Decidable (WF cfg) := by
  unfold WF
  infer_instance

/-- A small concrete configuration used by witnesses: cell 0 (value 5) shared
by handles 0 and 1, cell 1 (value 9) uniquely owned by handle 2, and the
moved-from null handle 3. -/
def cfgW : Config Nat :=
  { cells := [(0, ⟨2, 5⟩), (1, ⟨1, 9⟩)],
    nextId := 2,
    defaultCell := none,
    handles := [(0, some 0), (1, some 0), (2, some 1), (3, none)],
    nextHandle := 4 }

/-- Claim C3: copy-constructing a handle `b` from a non-null handle `a`
attaches `b` to `a`'s cell and increments that cell's count by exactly one,
after which `identity(a,b)` is true and `read(a) = read(b)`. -/
theorem copy_ctor_shares {T : Type} [Inhabited T] {cfg : Config T} {a c : Nat}
    {cell : Cell T} (hwf : WF cfg)
    (ha : alookup cfg.handles a = some (some c))
    (hc : alookup cfg.cells c = some cell) :
    ∃ cfg', applyOp cfg (Op.copyCtor a) = some cfg' ∧
      alookup cfg'.handles cfg.nextHandle = some (some c) ∧
      alookup cfg'.cells c = some ⟨cell.count + 1, cell.value⟩ ∧
      identity cfg' a cfg.nextHandle = some true ∧
      read cfg' a = read cfg' cfg.nextHandle ∧
      read cfg' a = read cfg a := by
  obtain ⟨h1, h2, h3, h4, h5, h6, h7⟩ := hwf
  have haN : ¬(a = cfg.nextHandle) := by
    have := h4 a (List.mem_map.2 ⟨(a, some c), alookup_mem ha, rfl⟩)
    omega
  have hA : alookup ((cfg.nextHandle, some c) :: cfg.handles) a = some (some c) := by
    rw [alookup_cons, if_neg haN]
    exact ha
  have hN : alookup ((cfg.nextHandle, some c) :: cfg.handles) cfg.nextHandle
      = some (some c) := by
    rw [alookup_cons, if_pos rfl]
  have hC : alookup (aset cfg.cells c ⟨cell.count + 1, cell.value⟩) c
      = some ⟨cell.count + 1, cell.value⟩ :=
    alookup_aset_self (by rw [hc]; rfl) _
  refine ⟨_, applyOp_copyCtor cfg ha hc, ?_, ?_, ?_, ?_, ?_⟩
  · exact hN
  · exact hC
  · unfold identity
    simp [hA, hN]
  · unfold read
    simp [hA, hN]
  · unfold read
    simp [hA, hC, ha, hc]

/-- Claim C3 witness: the theorem applied to the concrete configuration
`cfgW` at the shared cell 0. -/
theorem copy_ctor_shares_witness :
    WF cfgW ∧
    alookup cfgW.handles 0 = some (some 0) ∧
    alookup cfgW.cells 0 = some ⟨2, 5⟩ ∧
    (∃ cfg', applyOp cfgW (Op.copyCtor 0) = some cfg' ∧
      alookup cfg'.handles cfgW.nextHandle = some (some 0) ∧
      alookup cfg'.cells 0 = some ⟨3, 5⟩ ∧
      identity cfg' 0 cfgW.nextHandle = some true ∧
      read cfg' 0 = read cfg' cfgW.nextHandle ∧
      read cfg' 0 = read cfgW 0) :=
  ⟨by decide, rfl, rfl, @copy_ctor_shares Nat _ cfgW 0 0 ⟨2, 5⟩ (by decide) rfl rfl⟩

/-- Claim C8: move construction transfers the source's cell reference to the
new handle and nulls the source, with no change to any cell (in particular no
reference-count change); if the source was the only reference, the new handle
is unique afterwards. -/
theorem move_ctor_transfers {T : Type} [Inhabited T] {cfg : Config T} {a c : Nat}
    {cell : Cell T} (hwf : WF cfg)
    (ha : alookup cfg.handles a = some (some c))
    (hc : alookup cfg.cells c = some cell) :
    ∃ cfg', applyOp cfg (Op.moveCtor a) = some cfg' ∧
      alookup cfg'.handles cfg.nextHandle = some (some c) ∧
      alookup cfg'.handles a = some none ∧
      cfg'.cells = cfg.cells ∧
      (cell.count = 1 → unique cfg' cfg.nextHandle = some true) := by
  obtain ⟨h1, h2, h3, h4, h5, h6, h7⟩ := hwf
  have haN : ¬(a = cfg.nextHandle) := by
    have := h4 a (List.mem_map.2 ⟨(a, some c), alookup_mem ha, rfl⟩)
    omega
  have hN : alookup ((cfg.nextHandle, some c) :: aset cfg.handles a none)
      cfg.nextHandle = some (some c) := by
    rw [alookup_cons, if_pos rfl]
  have hA : alookup ((cfg.nextHandle, some c) :: aset cfg.handles a none) a
      = some none := by
    rw [alookup_cons, if_neg haN]
    exact alookup_aset_self (by rw [ha]; rfl) none
  refine ⟨_, applyOp_moveCtor cfg ha, hN, hA, rfl, ?_⟩
  intro hone
  unfold unique
  simp [hN, hc, hone]

/-- Claim C8 witness: the theorem applied to `cfgW` at handle 2, the sole
owner of cell 1. -/
theorem move_ctor_transfers_witness :
    WF cfgW ∧
    alookup cfgW.handles 2 = some (some 1) ∧
    alookup cfgW.cells 1 = some ⟨1, 9⟩ ∧
    (∃ cfg', applyOp cfgW (Op.moveCtor 2) = some cfg' ∧
      alookup cfg'.handles cfgW.nextHandle = some (some 1) ∧
      alookup cfg'.handles 2 = some none ∧
      cfg'.cells = cfgW.cells ∧
      ((⟨1, 9⟩ : Cell Nat).count = 1 → unique cfg' cfgW.nextHandle = some true)) :=
  ⟨by decide, rfl, rfl, @move_ctor_transfers Nat _ cfgW 2 1 ⟨1, 9⟩ (by decide) rfl rfl⟩

/-- Claim C10: assigning a raw value to a moved-from (null) handle is
well-defined: it takes the new-handle branch, after which the handle is
non-null, unique, and reads back the assigned value, restoring its validity
for read, write, identity and unique. -/
theorem value_assign_null_restores {T : Type} [Inhabited T] {cfg : Config T}
    {h : Nat} (v : T) (hh : alookup cfg.handles h = some none) :
    ∃ cfg', applyOp cfg (Op.valueAssign h v) = some cfg' ∧
      alookup cfg'.handles h = some (some cfg.nextId) ∧
      read cfg' h = some v ∧
      unique cfg' h = some true ∧
      identity cfg' h h = some true := by
  have hH : alookup (aset cfg.handles h (some cfg.nextId)) h
      = some (some cfg.nextId) :=
    alookup_aset_self (by rw [hh]; rfl) _
  have hC : alookup ((cfg.nextId, (⟨1, v⟩ : Cell T)) :: cfg.cells) cfg.nextId
      = some ⟨1, v⟩ := by
    rw [alookup_cons, if_pos rfl]
  refine ⟨_, applyOp_valueAssign_null cfg v hh, hH, ?_, ?_, ?_⟩
  · unfold read
    simp [hH, hC]
  · unfold unique
    simp [hH, hC]
  · unfold identity
    simp [hH]

/-- Claim C10 witness: the theorem applied to `cfgW` at the null handle 3. -/
theorem value_assign_null_restores_witness :
    alookup cfgW.handles 3 = some none ∧
    (∃ cfg', applyOp cfgW (Op.valueAssign 3 42) = some cfg' ∧
      alookup cfg'.handles 3 = some (some cfgW.nextId) ∧
      read cfg' 3 = some 42 ∧
      unique cfg' 3 = some true ∧
      identity cfg' 3 3 = some true) :=
  ⟨rfl, @value_assign_null_restores Nat _ cfgW 3 42 rfl⟩

/-- Claim C1: on a shared handle (two distinct non-null handles on one cell,
so the written handle is not unique), `write()` allocates a fresh cell
holding a copy of the current value and reseats the handle there: afterwards
the two handles are no longer identical, the other handle reads the
unchanged value, and the written handle is unique and reads the pre-write
value; on an already-unique handle `write()` leaves the configuration
unchanged, returning a reference into the existing cell with no new cell
allocated. -/
theorem write_cow_semantics {T : Type} [Inhabited T] {cfg : Config T}
    {a b c : Nat} {cell : Cell T}
    (hwf : WF cfg) (hab : a ≠ b)
    (ha : alookup cfg.handles a = some (some c))
    (hb : alookup cfg.handles b = some (some c))
    (hc : alookup cfg.cells c = some cell) :
    (∃ cfg', applyOp cfg (Op.write b) = some cfg' ∧
      cfg'.nextId = cfg.nextId + 1 ∧
      alookup cfg'.cells cfg.nextId = some ⟨1, cell.value⟩ ∧
      identity cfg' a b = some false ∧
      read cfg' a = read cfg a ∧
      unique cfg' b = some true ∧
      read cfg' b = some cell.value ∧
      read cfg b = some cell.value) ∧
    (∀ h0 c0 cell0, alookup cfg.handles h0 = some (some c0) →
      alookup cfg.cells c0 = some cell0 → cell0.count = 1 →
      applyOp cfg (Op.write h0) = some cfg) := by
  obtain ⟨h1, h2, h3, h4, h5, h6, h7⟩ := hwf
  constructor
  · have hcN : c < cfg.nextId := h3 c (List.mem_map.2 ⟨(c, cell), alookup_mem hc, rfl⟩)
    have hcnt2 : 2 ≤ cell.count := by
      have h2r := refCountH_two hab ha hb
      have hcq : cell.count = refCountH cfg.handles c + baseline cfg c :=
        h7 (c, cell) (alookup_mem hc)
      omega
    have hcnt : cell.count ≠ 1 := by omega
    have hshape := applyOp_write_shared cfg hb hc hcnt
    have hlc1 : alookup ((cfg.nextId, (⟨1, cell.value⟩ : Cell T)) :: cfg.cells) c
        = some cell := by
      rw [alookup_cons, if_neg (by omega)]
      exact hc
    rw [releaseRef_dec
        { cfg with cells := (cfg.nextId, (⟨1, cell.value⟩ : Cell T)) :: cfg.cells,
                   nextId := cfg.nextId + 1 } hlc1 hcnt] at hshape
    have hB : alookup (aset cfg.handles b (some cfg.nextId)) b
        = some (some cfg.nextId) := alookup_aset_self (by rw [hb]; rfl) _
    have hA : alookup (aset cfg.handles b (some cfg.nextId)) a
        = some (some c) := by
      rw [alookup_aset_ne _ hab]
      exact ha
    have hCN : alookup (aset ((cfg.nextId, (⟨1, cell.value⟩ : Cell T)) :: cfg.cells) c
        ⟨cell.count - 1, cell.value⟩) cfg.nextId = some ⟨1, cell.value⟩ := by
      rw [alookup_aset_ne _ (by omega : ¬(cfg.nextId = c)), alookup_cons, if_pos rfl]
    have hCC : alookup (aset ((cfg.nextId, (⟨1, cell.value⟩ : Cell T)) :: cfg.cells) c
        ⟨cell.count - 1, cell.value⟩) c = some ⟨cell.count - 1, cell.value⟩ :=
      alookup_aset_self (by rw [hlc1]; rfl) _
    have hcneN : ¬(c = cfg.nextId) := by omega
    refine ⟨_, hshape, rfl, hCN, ?_, ?_, ?_, ?_, ?_⟩
    · unfold identity
      simp [hA, hB, hcneN]
    · unfold read
      simp [hA, hCC, ha, hc]
    · unfold unique
      simp [hB, hCN]
    · unfold read
      simp [hB, hCN]
    · unfold read
      simp [hb, hc]
  · intro h0 c0 cell0 hh0 hc0 hone
    exact applyOp_write_unique cfg hh0 hc0 hone

/-- Claim C1 witness: the theorem applied to `cfgW` with handles 0 and 1
sharing cell 0. -/
theorem write_cow_semantics_witness :
    WF cfgW ∧ (0 : Nat) ≠ 1 ∧
    alookup cfgW.handles 0 = some (some 0) ∧
    alookup cfgW.handles 1 = some (some 0) ∧
    alookup cfgW.cells 0 = some ⟨2, 5⟩ ∧
    ((∃ cfg', applyOp cfgW (Op.write 1) = some cfg' ∧
        cfg'.nextId = cfgW.nextId + 1 ∧
        alookup cfg'.cells cfgW.nextId = some ⟨1, 5⟩ ∧
        identity cfg' 0 1 = some false ∧
        read cfg' 0 = read cfgW 0 ∧
        unique cfg' 1 = some true ∧
        read cfg' 1 = some 5 ∧
        read cfgW 1 = some 5) ∧
      (∀ h0 c0 cell0, alookup cfgW.handles h0 = some (some c0) →
        alookup cfgW.cells c0 = some cell0 → cell0.count = 1 →
        applyOp cfgW (Op.write h0) = some cfgW)) :=
  ⟨by decide, by decide, rfl, rfl, rfl,
    @write_cow_semantics Nat _ cfgW 0 1 0 ⟨2, 5⟩ (by decide) (by decide) rfl rfl rfl⟩

/-- Claim C7: value assignment `operator=(U&&)`: on a non-null unique handle
the owned value is mutated in place with no allocation and the same cell
(identity preserved); otherwise, if the handle is non-null but not unique
(cell count ≠ 1), a fresh cell holding the value is swapped in, the handle
reseats to it, and the old cell keeps its value, so any other handle of the
old cell reads the same value as before; on a null handle a fresh cell is
installed as well. -/
theorem value_assign_semantics {T : Type} [Inhabited T] {cfg : Config T}
    (hwf : WF cfg) :
    (∀ h c cell (v : T), alookup cfg.handles h = some (some c) →
      alookup cfg.cells c = some cell → cell.count = 1 →
      applyOp cfg (Op.valueAssign h v)
          = some { cfg with cells := aset cfg.cells c ⟨cell.count, v⟩ } ∧
      alookup ({ cfg with cells := aset cfg.cells c ⟨cell.count, v⟩ } :
          Config T).handles h = some (some c) ∧
      read { cfg with cells := aset cfg.cells c ⟨cell.count, v⟩ } h = some v ∧
      ({ cfg with cells := aset cfg.cells c ⟨cell.count, v⟩ } : Config T).nextId
          = cfg.nextId) ∧
    (∀ h c cell (v : T), alookup cfg.handles h = some (some c) →
      alookup cfg.cells c = some cell → cell.count ≠ 1 →
      ∃ cfg', applyOp cfg (Op.valueAssign h v) = some cfg' ∧
        alookup cfg'.handles h = some (some cfg.nextId) ∧
        alookup cfg'.cells cfg.nextId = some ⟨1, v⟩ ∧
        read cfg' h = some v ∧
        alookup cfg'.cells c = some ⟨cell.count - 1, cell.value⟩ ∧
        (∀ g, g ≠ h → alookup cfg.handles g = some (some c) →
          read cfg' g = read cfg g)) ∧
    (∀ h (v : T), alookup cfg.handles h = some none →
      ∃ cfg', applyOp cfg (Op.valueAssign h v) = some cfg' ∧
        alookup cfg'.handles h = some (some cfg.nextId) ∧
        read cfg' h = some v) := by
  obtain ⟨h1, h2, h3, h4, h5, h6, h7⟩ := hwf
  refine ⟨?_, ?_, ?_⟩
  · intro h c cell v hh hc hone
    refine ⟨applyOp_valueAssign_inplace cfg v hh hc hone, hh, ?_, rfl⟩
    unfold read
    simp [hh, alookup_aset_self (show (alookup cfg.cells c).isSome from by rw [hc]; rfl)
      (⟨cell.count, v⟩ : Cell T)]
  · intro h c cell v hh hc hcnt
    have hcN : c < cfg.nextId := h3 c (List.mem_map.2 ⟨(c, cell), alookup_mem hc, rfl⟩)
    have hshape := applyOp_valueAssign_shared cfg v hh hc hcnt
    have hlc1 : alookup ((cfg.nextId, (⟨1, v⟩ : Cell T)) :: cfg.cells) c
        = some cell := by
      rw [alookup_cons, if_neg (by omega)]
      exact hc
    rw [releaseRef_dec
        { cfg with cells := (cfg.nextId, (⟨1, v⟩ : Cell T)) :: cfg.cells,
                   nextId := cfg.nextId + 1 } hlc1 hcnt] at hshape
    have hH : alookup (aset cfg.handles h (some cfg.nextId)) h
        = some (some cfg.nextId) := alookup_aset_self (by rw [hh]; rfl) _
    have hCN : alookup (aset ((cfg.nextId, (⟨1, v⟩ : Cell T)) :: cfg.cells) c
        ⟨cell.count - 1, cell.value⟩) cfg.nextId = some ⟨1, v⟩ := by
      rw [alookup_aset_ne _ (by omega : ¬(cfg.nextId = c)), alookup_cons, if_pos rfl]
    have hCC : alookup (aset ((cfg.nextId, (⟨1, v⟩ : Cell T)) :: cfg.cells) c
        ⟨cell.count - 1, cell.value⟩) c = some ⟨cell.count - 1, cell.value⟩ :=
      alookup_aset_self (by rw [hlc1]; rfl) _
    refine ⟨_, hshape, hH, hCN, ?_, hCC, ?_⟩
    · unfold read
      simp [hH, hCN]
    · intro g hg hgl
      have hG : alookup (aset cfg.handles h (some cfg.nextId)) g
          = some (some c) := by
        rw [alookup_aset_ne _ hg]
        exact hgl
      unfold read
      simp [hG, hCC, hgl, hc]
  · intro h v hh
    have hH : alookup (aset cfg.handles h (some cfg.nextId)) h
        = some (some cfg.nextId) := alookup_aset_self (by rw [hh]; rfl) _
    have hC : alookup ((cfg.nextId, (⟨1, v⟩ : Cell T)) :: cfg.cells) cfg.nextId
        = some ⟨1, v⟩ := by
      rw [alookup_cons, if_pos rfl]
    refine ⟨_, applyOp_valueAssign_null cfg v hh, hH, ?_⟩
    unfold read
    simp [hH, hC]

/-- Claim C7 witness: the theorem applied to `cfgW`. -/
theorem value_assign_semantics_witness :
    WF cfgW ∧
    ((∀ h c cell (v : Nat), alookup cfgW.handles h = some (some c) →
      alookup cfgW.cells c = some cell → cell.count = 1 →
      applyOp cfgW (Op.valueAssign h v)
          = some { cfgW with cells := aset cfgW.cells c ⟨cell.count, v⟩ } ∧
      alookup ({ cfgW with cells := aset cfgW.cells c ⟨cell.count, v⟩ } :
          Config Nat).handles h = some (some c) ∧
      read { cfgW with cells := aset cfgW.cells c ⟨cell.count, v⟩ } h = some v ∧
      ({ cfgW with cells := aset cfgW.cells c ⟨cell.count, v⟩ } : Config Nat).nextId
          = cfgW.nextId) ∧
    (∀ h c cell (v : Nat), alookup cfgW.handles h = some (some c) →
      alookup cfgW.cells c = some cell → cell.count ≠ 1 →
      ∃ cfg', applyOp cfgW (Op.valueAssign h v) = some cfg' ∧
        alookup cfg'.handles h = some (some cfgW.nextId) ∧
        alookup cfg'.cells cfgW.nextId = some ⟨1, v⟩ ∧
        read cfg' h = some v ∧
        alookup cfg'.cells c = some ⟨cell.count - 1, cell.value⟩ ∧
        (∀ g, g ≠ h → alookup cfgW.handles g = some (some c) →
          read cfg' g = read cfgW g)) ∧
    (∀ h (v : Nat), alookup cfgW.handles h = some none →
      ∃ cfg', applyOp cfgW (Op.valueAssign h v) = some cfg' ∧
        alookup cfg'.handles h = some (some cfgW.nextId) ∧
        read cfg' h = some v)) :=
  ⟨by decide, @value_assign_semantics Nat _ cfgW (by decide)⟩

/-- Claim C5: `write(transform, inplace)`: on a handle that is not unique
(cell count ≠ 1) the transform is applied to a read-only view of the
current value and its result placed in a freshly allocated cell that the
handle reseats to, the old cell keeping its value so that any other handle
of it reads the same value as before; on a unique handle the inplace
function mutates the value directly with no allocation and no replacement
of the cell; in both cases the handle afterwards reads the resulting
owned value. -/
theorem write_transform_inplace {T : Type} [Inhabited T] {cfg : Config T}
    (hwf : WF cfg) :
    (∀ h c cell (f ginp : T → T),
      alookup cfg.handles h = some (some c) →
      alookup cfg.cells c = some cell → cell.count ≠ 1 →
      ∃ cfg', applyOp cfg (Op.writeT h f ginp) = some cfg' ∧
        alookup cfg'.cells cfg.nextId = some ⟨1, f cell.value⟩ ∧
        alookup cfg'.handles h = some (some cfg.nextId) ∧
        read cfg' h = some (f cell.value) ∧
        alookup cfg'.cells c = some ⟨cell.count - 1, cell.value⟩ ∧
        (∀ g, g ≠ h → alookup cfg.handles g = some (some c) →
          read cfg' g = read cfg g)) ∧
    (∀ h c cell (f ginp : T → T), alookup cfg.handles h = some (some c) →
      alookup cfg.cells c = some cell → cell.count = 1 →
      applyOp cfg (Op.writeT h f ginp)
          = some { cfg with cells := aset cfg.cells c ⟨cell.count, ginp cell.value⟩ } ∧
      alookup ({ cfg with cells := aset cfg.cells c ⟨cell.count, ginp cell.value⟩ } :
          Config T).handles h = some (some c) ∧
      read { cfg with cells := aset cfg.cells c ⟨cell.count, ginp cell.value⟩ } h
          = some (ginp cell.value) ∧
      ({ cfg with cells := aset cfg.cells c ⟨cell.count, ginp cell.value⟩ } :
          Config T).nextId = cfg.nextId) := by
  obtain ⟨h1, h2, h3, h4, h5, h6, h7⟩ := hwf
  constructor
  · intro h c cell f ginp hh hc hcnt
    have hcN : c < cfg.nextId := h3 c (List.mem_map.2 ⟨(c, cell), alookup_mem hc, rfl⟩)
    have hshape := applyOp_writeT_shared cfg f ginp hh hc hcnt
    have hlc1 : alookup ((cfg.nextId, (⟨1, f cell.value⟩ : Cell T)) :: cfg.cells) c
        = some cell := by
      rw [alookup_cons, if_neg (by omega)]
      exact hc
    rw [releaseRef_dec
        { cfg with cells := (cfg.nextId, (⟨1, f cell.value⟩ : Cell T)) :: cfg.cells,
                   nextId := cfg.nextId + 1 } hlc1 hcnt] at hshape
    have hH : alookup (aset cfg.handles h (some cfg.nextId)) h
        = some (some cfg.nextId) := alookup_aset_self (by rw [hh]; rfl) _
    have hCN : alookup (aset ((cfg.nextId, (⟨1, f cell.value⟩ : Cell T)) :: cfg.cells) c
        ⟨cell.count - 1, cell.value⟩) cfg.nextId = some ⟨1, f cell.value⟩ := by
      rw [alookup_aset_ne _ (by omega : ¬(cfg.nextId = c)), alookup_cons, if_pos rfl]
    have hCC : alookup (aset ((cfg.nextId, (⟨1, f cell.value⟩ : Cell T)) :: cfg.cells) c
        ⟨cell.count - 1, cell.value⟩) c = some ⟨cell.count - 1, cell.value⟩ :=
      alookup_aset_self (by rw [hlc1]; rfl) _
    refine ⟨_, hshape, hCN, hH, ?_, hCC, ?_⟩
    · unfold read
      simp [hH, hCN]
    · intro g hg hgl
      have hG : alookup (aset cfg.handles h (some cfg.nextId)) g
          = some (some c) := by
        rw [alookup_aset_ne _ hg]
        exact hgl
      unfold read
      simp [hG, hCC, hgl, hc]
  · intro h c cell f ginp hh hc hone
    refine ⟨applyOp_writeT_unique cfg f ginp hh hc hone, hh, ?_, rfl⟩
    unfold read
    simp [hh, alookup_aset_self (show (alookup cfg.cells c).isSome from by rw [hc]; rfl)
      (⟨cell.count, ginp cell.value⟩ : Cell T)]

/-- Claim C5 witness: the theorem applied to `cfgW`. -/
theorem write_transform_inplace_witness :
    WF cfgW ∧
    ((∀ h c cell (f ginp : Nat → Nat),
      alookup cfgW.handles h = some (some c) →
      alookup cfgW.cells c = some cell → cell.count ≠ 1 →
      ∃ cfg', applyOp cfgW (Op.writeT h f ginp) = some cfg' ∧
        alookup cfg'.cells cfgW.nextId = some ⟨1, f cell.value⟩ ∧
        alookup cfg'.handles h = some (some cfgW.nextId) ∧
        read cfg' h = some (f cell.value) ∧
        alookup cfg'.cells c = some ⟨cell.count - 1, cell.value⟩ ∧
        (∀ g, g ≠ h → alookup cfgW.handles g = some (some c) →
          read cfg' g = read cfgW g)) ∧
    (∀ h c cell (f ginp : Nat → Nat), alookup cfgW.handles h = some (some c) →
      alookup cfgW.cells c = some cell → cell.count = 1 →
      applyOp cfgW (Op.writeT h f ginp)
          = some { cfgW with cells := aset cfgW.cells c ⟨cell.count, ginp cell.value⟩ } ∧
      alookup ({ cfgW with cells := aset cfgW.cells c ⟨cell.count, ginp cell.value⟩ } :
          Config Nat).handles h = some (some c) ∧
      read { cfgW with cells := aset cfgW.cells c ⟨cell.count, ginp cell.value⟩ } h
          = some (ginp cell.value) ∧
      ({ cfgW with cells := aset cfgW.cells c ⟨cell.count, ginp cell.value⟩ } :
          Config Nat).nextId = cfgW.nextId)) :=
  ⟨by decide, @write_transform_inplace Nat _ cfgW (by decide)⟩

/-- Claim C4: for non-null handles, `==` holds iff the handles are identical
or the underlying values compare equal; `<` holds iff the handles are not
identical and the underlying values compare less-than (so a handle is never
less than itself); `>`, `<=`, `>=` are the standard rewritings `b<a`,
`!(b<a)`, `!(a<b)` of `<`; and every mixed handle-versus-raw-value
comparison equals the corresponding comparison with the handle side replaced
by its `read()` value. -/
theorem comparison_consistency {T : Type} {cfg : Config T} {x y cx cy : Nat}
    {cellx celly : Cell T} (ltf eqf : T → T → Bool)
    (hx : alookup cfg.handles x = some (some cx))
    (hy : alookup cfg.handles y = some (some cy))
    (hcx : alookup cfg.cells cx = some cellx)
    (hcy : alookup cfg.cells cy = some celly) :
    (eq_cow eqf cfg x y = some true ↔
      (identity cfg x y = some true ∨ eqf cellx.value celly.value = true)) ∧
    (lt_cow ltf cfg x y = some true ↔
      (¬identity cfg x y = some true ∧ ltf cellx.value celly.value = true)) ∧
    lt_cow ltf cfg x x = some false ∧
    gt_cow ltf cfg x y = lt_cow ltf cfg y x ∧
    le_cow ltf cfg x y = (lt_cow ltf cfg y x).map (fun b => !b) ∧
    ge_cow ltf cfg x y = (lt_cow ltf cfg x y).map (fun b => !b) ∧
    ne_cow eqf cfg x y = (eq_cow eqf cfg x y).map (fun b => !b) ∧
    (∀ w : T,
      lt_cow_hv ltf cfg x w = some (ltf cellx.value w) ∧
      lt_cow_vh ltf cfg w y = some (ltf w celly.value) ∧
      gt_cow_hv ltf cfg x w = some (ltf w cellx.value) ∧
      gt_cow_vh ltf cfg w y = some (ltf celly.value w) ∧
      le_cow_hv ltf cfg x w = some (!(ltf w cellx.value)) ∧
      le_cow_vh ltf cfg w y = some (!(ltf celly.value w)) ∧
      ge_cow_hv ltf cfg x w = some (!(ltf cellx.value w)) ∧
      ge_cow_vh ltf cfg w y = some (!(ltf w celly.value)) ∧
      eq_cow_hv eqf cfg x w = some (eqf cellx.value w) ∧
      eq_cow_vh eqf cfg w y = some (eqf w celly.value)) := by
  have hid : identity cfg x y = some (decide (cx = cy)) := by
    unfold identity
    simp [hx, hy]
  have hrx : read cfg x = some cellx.value := by
    unfold read
    simp [hx, hcx]
  have hry : read cfg y = some celly.value := by
    unfold read
    simp [hy, hcy]
  have hidx : identity cfg x x = some true := by
    unfold identity
    simp [hx]
  refine ⟨?_, ?_, ?_, rfl, rfl, rfl, rfl, ?_⟩
  · unfold eq_cow
    rw [hid, hrx, hry]
    by_cases hxy : cx = cy <;> simp [hxy]
  · unfold lt_cow
    rw [hid, hrx, hry]
    by_cases hxy : cx = cy <;> simp [hxy]
  · unfold lt_cow
    rw [hidx]
    simp
  · intro w
    refine ⟨?_, ?_, ?_, ?_, ?_, ?_, ?_, ?_, ?_, ?_⟩ <;>
      simp [gt_cow_hv, gt_cow_vh, le_cow_hv, le_cow_vh, ge_cow_hv, ge_cow_vh,
        lt_cow_hv, lt_cow_vh, eq_cow_hv, eq_cow_vh, hrx, hry]

/-- Claim C4 witness: the theorem applied to `cfgW` with handles 0 and 2
(distinct cells, values 5 and 9) and the natural order and equality on
Nat. -/
theorem comparison_consistency_witness :
    alookup cfgW.handles 0 = some (some 0) ∧
    alookup cfgW.handles 2 = some (some 1) ∧
    alookup cfgW.cells 0 = some ⟨2, 5⟩ ∧
    alookup cfgW.cells 1 = some ⟨1, 9⟩ ∧
    ((eq_cow (fun a b => decide (a = b)) cfgW 0 2 = some true ↔
      (identity cfgW 0 2 = some true ∨ decide ((5:Nat) = 9) = true)) ∧
    (lt_cow (fun a b => decide (a < b)) cfgW 0 2 = some true ↔
      (¬identity cfgW 0 2 = some true ∧ decide ((5:Nat) < 9) = true)) ∧
    lt_cow (fun a b => decide (a < b)) cfgW 0 0 = some false ∧
    gt_cow (fun a b => decide (a < b)) cfgW 0 2
      = lt_cow (fun a b => decide (a < b)) cfgW 2 0 ∧
    le_cow (fun a b => decide (a < b)) cfgW 0 2
      = (lt_cow (fun a b => decide (a < b)) cfgW 2 0).map (fun b => !b) ∧
    ge_cow (fun a b => decide (a < b)) cfgW 0 2
      = (lt_cow (fun a b => decide (a < b)) cfgW 0 2).map (fun b => !b) ∧
    ne_cow (fun a b => decide (a = b)) cfgW 0 2
      = (eq_cow (fun a b => decide (a = b)) cfgW 0 2).map (fun b => !b) ∧
    (∀ w : Nat,
      lt_cow_hv (fun a b => decide (a < b)) cfgW 0 w = some (decide (5 < w)) ∧
      lt_cow_vh (fun a b => decide (a < b)) cfgW w 2 = some (decide (w < 9)) ∧
      gt_cow_hv (fun a b => decide (a < b)) cfgW 0 w = some (decide (w < 5)) ∧
      gt_cow_vh (fun a b => decide (a < b)) cfgW w 2 = some (decide (9 < w)) ∧
      le_cow_hv (fun a b => decide (a < b)) cfgW 0 w = some (!(decide (w < 5))) ∧
      le_cow_vh (fun a b => decide (a < b)) cfgW w 2 = some (!(decide (9 < w))) ∧
      ge_cow_hv (fun a b => decide (a < b)) cfgW 0 w = some (!(decide (5 < w))) ∧
      ge_cow_vh (fun a b => decide (a < b)) cfgW w 2 = some (!(decide (w < 9))) ∧
      eq_cow_hv (fun a b => decide (a = b)) cfgW 0 w = some (decide (5 = w)) ∧
      eq_cow_vh (fun a b => decide (a = b)) cfgW w 2 = some (decide (w = 9)))) :=
  ⟨rfl, rfl, rfl, rfl,
    @comparison_consistency Nat cfgW 0 2 0 1 ⟨2, 5⟩ ⟨1, 9⟩
      (fun a b => decide (a < b)) (fun a b => decide (a = b)) rfl rfl rfl rfl⟩

/-- Claim C9: failures of the element type's own operations are propagated
unchanged with the original configuration left unmodified: a failing element
constructor aborts value construction with no cell allocated; a failing
element copy aborts the copy branch of `write()` before the handle is
touched; failing transform or inplace functions abort
`write(transform, inplace)` the same way; a failing element assignment or
construction aborts value assignment; and a failing element comparison
propagates out of `operator<`, which on identical handles short-circuits
without running the element comparison at all. -/
theorem error_propagation {T E : Type} {cfg : Config T} {h c : Nat}
    {cell : Cell T} (e : E)
    (hh : alookup cfg.handles h = some (some c))
    (hc : alookup cfg.cells c = some cell) :
    valueCtorF cfg (Except.error e : Except E T) = (cfg, some e) ∧
    (∀ copyFn : T → Except E T, cell.count ≠ 1 →
      copyFn cell.value = Except.error e →
      writeF copyFn cfg h = some (cfg, some e)) ∧
    (∀ f g : T → Except E T,
      (cell.count ≠ 1 → f cell.value = Except.error e →
        writeTF f g cfg h = some (cfg, some e)) ∧
      (cell.count = 1 → g cell.value = Except.error e →
        writeTF f g cfg h = some (cfg, some e))) ∧
    (∀ (asg : T → Except E T) (mk : Except E T),
      (cell.count = 1 → asg cell.value = Except.error e →
        valueAssignF cfg h asg mk = some (cfg, some e)) ∧
      (cell.count ≠ 1 → mk = Except.error e →
        valueAssignF cfg h asg mk = some (cfg, some e))) ∧
    (∀ (ltf : T → T → Except E Bool) (y cy : Nat) (celly : Cell T),
      alookup cfg.handles y = some (some cy) →
      alookup cfg.cells cy = some celly → c ≠ cy →
      ltf cell.value celly.value = Except.error e →
      ltF ltf cfg h y = some (Except.error e)) ∧
    (∀ ltf : T → T → Except E Bool, ltF ltf cfg h h = some (Except.ok false)) := by
  refine ⟨rfl, ?_, ?_, ?_, ?_, ?_⟩
  · intro copyFn hcnt herr
    unfold writeF
    simp [hh, hc, hcnt, herr]
  · intro f g
    constructor
    · intro hcnt herr
      unfold writeTF
      simp [hh, hc, hcnt, herr]
    · intro hcnt herr
      unfold writeTF
      simp [hh, hc, hcnt, herr]
  · intro asg mk
    constructor
    · intro hcnt herr
      unfold valueAssignF
      simp [hh, hc, hcnt, herr]
    · intro hcnt herr
      unfold valueAssignF
      simp [hh, hc, hcnt, herr]
  · intro ltf y cy celly hy hcy hne herr
    unfold ltF identity read
    simp [hh, hy, hc, hcy, hne, herr]
  · intro ltf
    unfold ltF identity
    simp [hh]

/-- Claim C9 witness: the theorem applied to `cfgW` at the shared handle 0
with a concrete error value. -/
theorem error_propagation_witness :
    alookup cfgW.handles 0 = some (some 0) ∧
    alookup cfgW.cells 0 = some ⟨2, 5⟩ ∧
    (valueCtorF cfgW (Except.error 99 : Except Nat Nat) = (cfgW, some 99) ∧
    (∀ copyFn : Nat → Except Nat Nat, (⟨2, 5⟩ : Cell Nat).count ≠ 1 →
      copyFn (⟨2, 5⟩ : Cell Nat).value = Except.error 99 →
      writeF copyFn cfgW 0 = some (cfgW, some 99)) ∧
    (∀ f g : Nat → Except Nat Nat,
      ((⟨2, 5⟩ : Cell Nat).count ≠ 1 → f (⟨2, 5⟩ : Cell Nat).value = Except.error 99 →
        writeTF f g cfgW 0 = some (cfgW, some 99)) ∧
      ((⟨2, 5⟩ : Cell Nat).count = 1 → g (⟨2, 5⟩ : Cell Nat).value = Except.error 99 →
        writeTF f g cfgW 0 = some (cfgW, some 99))) ∧
    (∀ (asg : Nat → Except Nat Nat) (mk : Except Nat Nat),
      ((⟨2, 5⟩ : Cell Nat).count = 1 → asg (⟨2, 5⟩ : Cell Nat).value = Except.error 99 →
        valueAssignF cfgW 0 asg mk = some (cfgW, some 99)) ∧
      ((⟨2, 5⟩ : Cell Nat).count ≠ 1 → mk = Except.error 99 →
        valueAssignF cfgW 0 asg mk = some (cfgW, some 99))) ∧
    (∀ (ltf : Nat → Nat → Except Nat Bool) (y cy : Nat) (celly : Cell Nat),
      alookup cfgW.handles y = some (some cy) →
      alookup cfgW.cells cy = some celly → 0 ≠ cy →
      ltf (⟨2, 5⟩ : Cell Nat).value celly.value = Except.error 99 →
      ltF ltf cfgW 0 y = some (Except.error 99)) ∧
    (∀ ltf : Nat → Nat → Except Nat Bool, ltF ltf cfgW 0 0 = some (Except.ok false))) :=
  ⟨rfl, rfl, @error_propagation Nat Nat cfgW 0 0 ⟨2, 5⟩ 99 rfl rfl⟩

/-- The configuration after the first default construction from the empty
initial configuration. -/
def cfgD1 : Config Nat :=
  (applyOp (initConfig : Config Nat) Op.defaultCtor).getD initConfig

/-- The configuration after additionally destroying that default-constructed
handle. -/
def cfgD2 : Config Nat := (applyOp cfgD1 (Op.destroy 0)).getD initConfig

/-- Claim C6 counterexample: destroying the only default-constructed handle
is an operation that decrements the process-wide default cell's count from 2
back to the permanent baseline of 1 (without deallocating the cell), so the
claim that no operation decrements the count back to the baseline of 1 is
false on this concrete trace. -/
theorem default_count_back_to_baseline :
    applyOp (initConfig : Config Nat) Op.defaultCtor = some cfgD1 ∧
    cfgD1.defaultCell = some 0 ∧
    alookup cfgD1.cells 0 = some ⟨2, 0⟩ ∧
    applyOp cfgD1 (Op.destroy 0) = some cfgD2 ∧
    cfgD2.defaultCell = some 0 ∧
    alookup cfgD2.cells 0 = some ⟨1, 0⟩ :=
  ⟨rfl, rfl, rfl, rfl, rfl, rfl⟩

/-- Claim C6 (amended): the default cell's count starts at 1 when
`default_model` creates it, is incremented to 2 by the first attaching
default-constructed handle, and is incremented further by every subsequent
default construction; in every reachable configuration the default cell is
present with count at least the permanent baseline of 1 (it is never
decremented below the baseline), and no operation deallocates it, even if
every handle pointing to it is destroyed. -/
theorem default_cell_lifecycle {T : Type} [Inhabited T] {cfg : Config T}
    (hr : Reachable cfg) :
    (cfg.defaultCell = none →
      ∀ d cfg₁, default_model cfg = (d, cfg₁) →
        alookup cfg₁.cells d = some ⟨1, default⟩ ∧ cfg₁.defaultCell = some d) ∧
    (cfg.defaultCell = none →
      ∀ cfg', applyOp cfg Op.defaultCtor = some cfg' →
        cfg'.defaultCell = some cfg.nextId ∧
        alookup cfg'.cells cfg.nextId = some ⟨2, default⟩) ∧
    (∀ d cell, cfg.defaultCell = some d → alookup cfg.cells d = some cell →
      ∀ cfg', applyOp cfg Op.defaultCtor = some cfg' →
        alookup cfg'.cells d = some ⟨cell.count + 1, cell.value⟩) ∧
    (∀ d, cfg.defaultCell = some d →
      ∃ cell, alookup cfg.cells d = some cell ∧ 1 ≤ cell.count) ∧
    (∀ (op : Op T) cfg', applyOp cfg op = some cfg' →
      ∀ d, cfg.defaultCell = some d →
        cfg'.defaultCell = some d ∧ (alookup cfg'.cells d).isSome = true) := by
  have hwf := wf_reachable hr
  refine ⟨?_, ?_, ?_, ?_, ?_⟩
  · intro hd d cfg₁ hm
    unfold default_model at hm
    simp only [hd] at hm
    obtain ⟨rfl, rfl⟩ := hm
    constructor
    · show alookup ((cfg.nextId, (⟨1, (default : T)⟩ : Cell T)) :: cfg.cells)
          cfg.nextId = some ⟨1, default⟩
      rw [alookup_cons, if_pos rfl]
    · rfl
  · intro hd cfg' hstep
    rw [applyOp_defaultCtor_fresh cfg hd] at hstep
    obtain rfl := Option.some.inj hstep
    refine ⟨rfl, ?_⟩
    show alookup ((cfg.nextId, (⟨2, (default : T)⟩ : Cell T)) :: cfg.cells)
        cfg.nextId = some ⟨2, default⟩
    rw [alookup_cons, if_pos rfl]
  · intro d cell hd hc cfg' hstep
    rw [applyOp_defaultCtor_existing cfg hd hc] at hstep
    obtain rfl := Option.some.inj hstep
    show alookup (aset cfg.cells d ⟨cell.count + 1, cell.value⟩) d = _
    exact alookup_aset_self (by rw [hc]; rfl) _
  · intro d hd
    obtain ⟨h1, h2, h3, h4, h5, h6, h7⟩ := id hwf
    have hsome := defaultOkB_some h6 hd
    cases hcl : alookup cfg.cells d with
    | none =>
      rw [hcl] at hsome
      exact absurd hsome.1 (by simp)
    | some cell =>
      refine ⟨cell, rfl, ?_⟩
      have hcnt : cell.count = refCountH cfg.handles d + baseline cfg d :=
        h7 (d, cell) (alookup_mem hcl)
      have hb1 : baseline cfg d = 1 := by simp [baseline, hd]
      omega
  · intro op cfg' hstep d hd
    have hf := step_facts hwf hstep
    exact ⟨hf.2.2.1 d hd, hf.2.2.2 d hd⟩

/-- Claim C6 witness: the amended theorem applied to the reachable
configuration `cfgD1` (one default-constructed handle). -/
theorem default_cell_lifecycle_witness :
    Reachable cfgD1 ∧
    ((cfgD1.defaultCell = none →
      ∀ d cfg₁, default_model cfgD1 = (d, cfg₁) →
        alookup cfg₁.cells d = some ⟨1, default⟩ ∧ cfg₁.defaultCell = some d) ∧
    (cfgD1.defaultCell = none →
      ∀ cfg', applyOp cfgD1 Op.defaultCtor = some cfg' →
        cfg'.defaultCell = some cfgD1.nextId ∧
        alookup cfg'.cells cfgD1.nextId = some ⟨2, default⟩) ∧
    (∀ d cell, cfgD1.defaultCell = some d → alookup cfgD1.cells d = some cell →
      ∀ cfg', applyOp cfgD1 Op.defaultCtor = some cfg' →
        alookup cfg'.cells d = some ⟨cell.count + 1, cell.value⟩) ∧
    (∀ d, cfgD1.defaultCell = some d →
      ∃ cell, alookup cfgD1.cells d = some cell ∧ 1 ≤ cell.count) ∧
    (∀ (op : Op Nat) cfg', applyOp cfgD1 op = some cfg' →
      ∀ d, cfgD1.defaultCell = some d →
        cfg'.defaultCell = some d ∧ (alookup cfg'.cells d).isSome = true)) :=
  ⟨Reachable.step Op.defaultCtor Reachable.init rfl,
   @default_cell_lifecycle Nat _ cfgD1
     (Reachable.step Op.defaultCtor Reachable.init rfl)⟩

/-- The configuration after one value construction from the empty initial
configuration. -/
def cfgR1 : Config Nat :=
  (applyOp (initConfig : Config Nat) (Op.valueCtor 5)).getD initConfig

/-- The configuration after additionally copy-constructing a second handle
from the first. -/
def cfgR2 : Config Nat := (applyOp cfgR1 (Op.copyCtor 0)).getD initConfig

/-- Claim C2: in every reachable configuration each cell's count equals the
number of handles currently referencing it, with the process-wide default
cell carrying one permanent extra unit; copy construction increments the
source cell's count by exactly one; destroying a handle decrements its
cell's count by exactly one and deallocates the cell exactly when that
decrement takes the count from 1 to 0; under every operation a cell is
removed from the heap only when its count was 1, absent cells never
reappear, and the default cell is never deallocated. -/
theorem refcount_invariant {T : Type} [Inhabited T] {cfg : Config T}
    (hr : Reachable cfg) :
    (∀ p ∈ cfg.cells, p.2.count = refCount cfg p.1 + baseline cfg p.1) ∧
    (∀ src c cell cfg', alookup cfg.handles src = some (some c) →
        alookup cfg.cells c = some cell →
        applyOp cfg (Op.copyCtor src) = some cfg' →
        alookup cfg'.cells c = some ⟨cell.count + 1, cell.value⟩) ∧
    (∀ h c cell cfg', alookup cfg.handles h = some (some c) →
        alookup cfg.cells c = some cell →
        applyOp cfg (Op.destroy h) = some cfg' →
        (cell.count = 1 ∧ alookup cfg'.cells c = none) ∨
        (cell.count ≠ 1 ∧ alookup cfg'.cells c = some ⟨cell.count - 1, cell.value⟩)) ∧
    (∀ (op : Op T) cfg', applyOp cfg op = some cfg' →
      (∀ c cell, alookup cfg.cells c = some cell → alookup cfg'.cells c = none →
          cell.count = 1) ∧
      (∀ c, c < cfg.nextId → alookup cfg.cells c = none →
          alookup cfg'.cells c = none) ∧
      (∀ d, cfg.defaultCell = some d → cfg'.defaultCell = some d ∧
          (alookup cfg'.cells d).isSome = true)) := by
  have hwf := wf_reachable hr
  refine ⟨hwf.2.2.2.2.2.2, ?_, ?_, ?_⟩
  · intro src c cell cfg' hs hc hstep
    rw [applyOp_copyCtor cfg hs hc] at hstep
    obtain rfl := Option.some.inj hstep
    show alookup (aset cfg.cells c ⟨cell.count + 1, cell.value⟩) c = _
    exact alookup_aset_self (by rw [hc]; rfl) _
  · intro h c cell cfg' hh hc hstep
    rw [applyOp_destroy cfg hh] at hstep
    obtain rfl := Option.some.inj hstep
    by_cases hone : cell.count = 1
    · left
      refine ⟨hone, ?_⟩
      show alookup (releaseRef cfg (some c)).cells c = none
      rw [releaseRef_last cfg hc hone]
      exact alookup_aremove_self hwf.1
    · right
      refine ⟨hone, ?_⟩
      show alookup (releaseRef cfg (some c)).cells c
          = some ⟨cell.count - 1, cell.value⟩
      rw [releaseRef_dec cfg hc hone]
      exact alookup_aset_self (by rw [hc]; rfl) _
  · intro op cfg' hstep
    have hf := step_facts hwf hstep
    exact ⟨hf.1, hf.2.1, fun d hd => ⟨hf.2.2.1 d hd, hf.2.2.2 d hd⟩⟩

/-- Claim C2 witness: the theorem applied to the reachable configuration
`cfgR2` (one cell shared by two handles). -/
theorem refcount_invariant_witness :
    Reachable cfgR2 ∧
    ((∀ p ∈ cfgR2.cells, p.2.count = refCount cfgR2 p.1 + baseline cfgR2 p.1) ∧
    (∀ src c cell cfg', alookup cfgR2.handles src = some (some c) →
        alookup cfgR2.cells c = some cell →
        applyOp cfgR2 (Op.copyCtor src) = some cfg' →
        alookup cfg'.cells c = some ⟨cell.count + 1, cell.value⟩) ∧
    (∀ h c cell cfg', alookup cfgR2.handles h = some (some c) →
        alookup cfgR2.cells c = some cell →
        applyOp cfgR2 (Op.destroy h) = some cfg' →
        (cell.count = 1 ∧ alookup cfg'.cells c = none) ∨
        (cell.count ≠ 1 ∧ alookup cfg'.cells c = some ⟨cell.count - 1, cell.value⟩)) ∧
    (∀ (op : Op Nat) cfg', applyOp cfgR2 op = some cfg' →
      (∀ c cell, alookup cfgR2.cells c = some cell → alookup cfg'.cells c = none →
          cell.count = 1) ∧
      (∀ c, c < cfgR2.nextId → alookup cfgR2.cells c = none →
          alookup cfg'.cells c = none) ∧
      (∀ d, cfgR2.defaultCell = some d → cfg'.defaultCell = some d ∧
          (alookup cfg'.cells d).isSome = true))) :=
  ⟨Reachable.step (Op.copyCtor 0)
      (Reachable.step (Op.valueCtor 5) Reachable.init rfl) rfl,
   @refcount_invariant Nat _ cfgR2
     (Reachable.step (Op.copyCtor 0)
       (Reachable.step (Op.valueCtor 5) Reachable.init rfl) rfl)⟩

end CoW
